import Mathlib

/-!
Shallow embedding of the Blender addon io_import_pixelart.py.

The converter decodes an image into a pixel buffer, walks pixels row-major,
deduplicates colors into a run-local cache, and emits one unit cube per
non-transparent pixel under a single parent object. Host collaborators
(scene registries, image load/release) are modelled as explicit state plus
an event trace; Python floats are modelled as exact rationals; Python
str.format over keyword parameters is modelled for plain named fields and
brace escapes, returning ValueError for malformed syntax and KeyError for
unknown field names, as described in the spec.
-/

namespace PixelArt

/-- Pixel color tuple (r, g, b, a), exact rational channel samples. -/
abbrev Color := ℚ × ℚ × ℚ × ℚ

/-- Decoded image buffer as the host hands it over: channel count, size and
the flat row-major pixel sample list. -/
structure Image where
  channels : Nat
  width : Nat
  height : Nat
  pixels : List ℚ
deriving DecidableEq

/-- Host guarantee on a decoded image: the flat sample list covers exactly
width * height pixels with `channels` samples each. -/
def WF (img : Image) : Prop :=
  img.pixels.length = img.width * img.height * img.channels

/-- Errors raised by the modelled str.format. -/
inductive FmtErr where
  | valueError (msg : String)
  | keyError (key : String)
deriving DecidableEq

/-- Python exceptions relevant to the embedded code. -/
inductive PyErr where
  | ioError (msg : String)
  | indexError
  | valueError (msg : String)
  | keyError (key : String)
deriving DecidableEq

/-- Inject a format error into the exception type. -/
def FmtErr.toPy : FmtErr → PyErr
  | .valueError m => .valueError m
  | .keyError k => .keyError k

/-- Whether an exception is a string-formatting error. -/
def PyErr.isFmt : PyErr → Bool
  | .valueError _ => true
  | .keyError _ => true
  | _ => false

/-- Result of running an effectful piece of the addon: either a normal
completion or a raised exception; both carry the state at exit, so that
partial side effects on error paths are observable. -/
inductive PyResult (σ : Type) where
  | ok (s : σ)
  | err (e : PyErr) (s : σ)

/-- State at exit, whether the computation completed or raised. -/
def PyResult.stateOf : PyResult σ → σ
  | .ok s => s
  | .err _ s => s

/-- Sequencing of effectful steps: an exception aborts the rest. -/
def PyResult.andThen (r : PyResult σ) (f : σ → PyResult σ) : PyResult σ :=
  match r with
  | .ok s => f s
  | .err e s => .err e s

/-- Left fold of an effectful loop body over a list, stopping at the first
raised exception, as a Python for loop does. -/
def foldPy (f : σ → α → PyResult σ) : σ → List α → PyResult σ
  | s, [] => .ok s
  | s, a :: rest =>
    match f s a with
    | .ok s1 => foldPy f s1 rest
    | .err e s1 => .err e s1

/-- Keyword-argument lookup for the modelled str.format. -/
def lookupParam : List (String × String) → String → Option String
  | [], _ => none
  | e :: rest, k => if e.1 = k then some e.2 else lookupParam rest k

/-- Keys of a keyword-parameter list. -/
def keysOf (ps : List (String × String)) : List String := ps.map (fun e => e.1)

/-- Core of the modelled Python str.format: scans the template; the last
argument is `some acc` while inside a replacement field (chars of the
field name accumulated in reverse). Plain named fields and doubled-brace
escapes are supported; an unterminated or stray brace is a ValueError and
an unknown field name a KeyError, matching the validation behavior the
operator relies on. The fuel argument is only there to make the recursion
structural; every call supplies more fuel than the template has chars, and
each step consumes a char, so the fuel-exhaustion branch is unreachable. -/
def fmtGo (params : List (String × String)) :
    Nat → List Char → Option (List Char) → Except FmtErr (List Char)
  | 0, _, _ => .error (.valueError "format scanner out of fuel")
  | _ + 1, [], none => .ok []
  | _ + 1, [], some _ => .error (.valueError "Single \x7b encountered in format string")
  | fuel + 1, c :: rest, some acc =>
    if c = '\x7d' then
      match lookupParam params (String.mk acc.reverse) with
      | none => .error (.keyError (String.mk acc.reverse))
      | some v => Except.map (fun t => v.data ++ t) (fmtGo params fuel rest none)
    else fmtGo params fuel rest (some (c :: acc))
  | fuel + 1, c :: rest, none =>
    if c = '\x7b' then
      match rest with
      | c2 :: rest2 =>
        if c2 = '\x7b' then Except.map (fun t => '\x7b' :: t) (fmtGo params fuel rest2 none)
        else fmtGo params fuel rest (some [])
      | [] => fmtGo params fuel rest (some [])
    else if c = '\x7d' then
      match rest with
      | c2 :: rest2 =>
        if c2 = '\x7d' then Except.map (fun t => '\x7d' :: t) (fmtGo params fuel rest2 none)
        else .error (.valueError "Single \x7d encountered in format string")
      | [] => .error (.valueError "Single \x7d encountered in format string")
    else Except.map (fun t => c :: t) (fmtGo params fuel rest none)

/-- Modelled `template.format(**params)`. -/
def pyFormat (t : String) (params : List (String × String)) : Except FmtErr String :=
  Except.map String.mk (fmtGo params (t.data.length + 1) t.data none)

/-- Whether a format attempt succeeded. -/
def fmtOk (r : Except FmtErr α) : Bool :=
  match r with
  | .ok _ => true
  | .error _ => false

/-- Observable host actions performed by one conversion run. -/
inductive Ev where
  | imageLoad
  | imageUserClear
  | imageRemove
  | cacheLookup (c : Color)
  | registryLookup (name : String)
  | matCreate (id : Nat) (name : String)
  | meshCreate (id : Nat) (name : String)
  | objCreate (id : Nat) (name : String)
  | collectionLink (id : Nat)
  | report (msg : String)
deriving DecidableEq

/-- Shader node kinds used by the addon. -/
inductive NodeKind where
  | diffuse
  | output
  | mix
  | transparent
deriving DecidableEq

/-- Default value assigned to a shader node input socket 0. -/
inductive NodeInput where
  | unset
  | color (c : Color)
  | scalar (q : ℚ)
deriving DecidableEq

/-- A shader node: its kind and the default value set on inputs[0]. -/
structure ShaderNode where
  kind : NodeKind
  input0 : NodeInput
deriving DecidableEq

/-- A link in a material node tree, between output socket `fromSocket` of
node index `fromNode` and input socket `toSocket` of node index `toNode`. -/
structure NodeLink where
  fromNode : Nat
  fromSocket : Nat
  toNode : Nat
  toSocket : Nat
deriving DecidableEq

/-- A host material datablock. -/
structure Material where
  id : Nat
  name : String
  diffuse_color : Color
  use_nodes : Bool
  nodes : List ShaderNode
  links : List NodeLink
deriving DecidableEq

/-- A host mesh datablock. -/
structure Mesh where
  id : Nat
  name : String
  verts : List (Nat × Nat × Nat)
  edges : List (Nat × Nat)
  faces : List (Nat × Nat × Nat × Nat)
  materials : List Nat
deriving DecidableEq

/-- A host object datablock: `data` is the mesh it owns (none for an
empty), `parent` the id of its parent object. -/
structure SceneObj where
  id : Nat
  name : String
  data : Option Nat
  location : Nat × Nat × Nat
  parent : Option Nat
deriving DecidableEq

/-- Host scene state: the bpy.data registries, the active collection, id
counters for freshly created datablocks, and the trace of host actions. -/
structure Scene where
  materials : List Material
  objects : List SceneObj
  meshes : List Mesh
  collection : List Nat
  nextMatId : Nat
  nextObjId : Nat
  nextMeshId : Nat
  events : List Ev
deriving DecidableEq

/-- Scene with empty registries, as a fresh host session provides. -/
def emptyScene : Scene :=
  { materials := [], objects := [], meshes := [], collection := []
    nextMatId := 0, nextObjId := 0, nextMeshId := 0, events := [] }

/-- State threaded through the pixel loop: the host scene plus the
run-local color → material cache (the `materials` dict of the source). -/
structure RunState where
  scene : Scene
  cache : List (Color × Nat)
deriving DecidableEq

/-- Return statuses of a Blender operator. -/
inductive OpResult where
  | FINISHED
  | CANCELLED
deriving DecidableEq

/-- Append an action to the trace. -/
def logEv (s : Scene) (e : Ev) : Scene :=
  { s with events := s.events ++ [e] }

/-- The finally block of read_pixel_art: image.user_clear() followed by
bpy.data.images.remove(image). -/
def releaseImage (s : Scene) : Scene :=
  logEv (logEv s .imageUserClear) .imageRemove

/-- bpy.data.objects.new(name, object_data=None): a fresh empty object. -/
def newEmptyObject (s : Scene) (name : String) : Scene × Nat :=
  let id := s.nextObjId
  ({ s with objects := s.objects ++ [⟨id, name, none, (0, 0, 0), none⟩]
            nextObjId := id + 1
            events := s.events ++ [.objCreate id name] }, id)

/-- bpy.context.collection.objects.link(obj). -/
def linkToCollection (s : Scene) (id : Nat) : Scene :=
  { s with collection := s.collection ++ [id]
           events := s.events ++ [.collectionLink id] }

/-- The unit cube vertices of the source. -/
def cube_verts : List (Nat × Nat × Nat) :=
  [(0, 0, 0), (1, 0, 0), (1, 1, 0), (0, 1, 0), (0, 0, 1), (1, 0, 1), (1, 1, 1), (0, 1, 1)]

/-- The unit cube edge list of the source (left empty, edges inferred). -/
def cube_edges : List (Nat × Nat) := []

/-- The unit cube quad faces of the source. -/
def cube_faces : List (Nat × Nat × Nat × Nat) :=
  [(0, 1, 2, 3), (0, 1, 5, 4), (1, 2, 6, 5), (4, 5, 6, 7), (2, 3, 7, 6), (0, 3, 7, 4)]

/-- bpy.data.meshes.new + from_pydata + materials.append + update for one
pixel cube. -/
def newCubeMesh (s : Scene) (name : String) (matId : Nat) : Scene × Nat :=
  let id := s.nextMeshId
  ({ s with meshes := s.meshes ++ [⟨id, name, cube_verts, cube_edges, cube_faces, [matId]⟩]
            nextMeshId := id + 1
            events := s.events ++ [.meshCreate id name] }, id)

/-- bpy.data.objects.new(name, object_data=mesh), link into the active
collection, then set location to (x, y, 0) and parent to the group node. -/
def newCubeObject (s : Scene) (name : String) (meshId : Nat) (x y : Nat) (parentId : Nat) : Scene :=
  let id := s.nextObjId
  let s1 := { s with objects := s.objects ++ [⟨id, name, some meshId, (x, y, 0), some parentId⟩]
                     nextObjId := id + 1
                     events := s.events ++ [.objCreate id name] }
  linkToCollection s1 id

/-- bpy.data.materials.get(name): lookup in the global material registry. -/
def registryGet (s : Scene) (name : String) : Option Material :=
  s.materials.find? (fun m => m.name = name)

/-- Lookup in the run-local color → material dict. -/
def lookupC : List (Color × Nat) → Color → Option Nat
  | [], _ => none
  | e :: rest, c => if e.1 = c then some e.2 else lookupC rest c

/-- The shader graph built for a newly created material when use_nodes is
set: nodes are listed in creation order (diffuse, output, then mix and
transparent when alpha < 1) and links name node indices in that order. -/
def buildNodeTree (c : Color) : List ShaderNode × List NodeLink :=
  let a := c.2.2.2
  if a < 1 then
    ([⟨.diffuse, .color c⟩, ⟨.output, .unset⟩, ⟨.mix, .scalar a⟩, ⟨.transparent, .color c⟩],
     [⟨0, 0, 2, 1⟩, ⟨3, 0, 2, 2⟩, ⟨2, 0, 1, 0⟩])
  else
    ([⟨.diffuse, .color c⟩, ⟨.output, .unset⟩], [⟨0, 0, 1, 0⟩])

/-- A freshly created material: diffuse_color set to the pixel color and
the node tree built when use_nodes is set. -/
def mkMaterial (id : Nat) (name : String) (c : Color) (use_nodes : Bool) : Material :=
  let t := if use_nodes then buildNodeTree c else ([], [])
  ⟨id, name, c, use_nodes, t.1, t.2⟩

/-- The material-resolution block of the pixel loop: try the run-local
dict; on a miss, optionally try the global registry by computed name; else
create a new material. Returns the state and the resolved material id. -/
def resolveMaterial (reuse_materials : Bool) (use_nodes : Bool) (name : String) (c : Color)
    (st : RunState) : RunState × Nat :=
  let s0 := logEv st.scene (.cacheLookup c)
  match lookupC st.cache c with
  | some mid => (⟨s0, st.cache⟩, mid)
  | none =>
    let looked : Option Material × Scene :=
      if reuse_materials then
        let s1 := logEv s0 (.registryLookup name)
        (registryGet s1 name, s1)
      else (none, s0)
    match looked with
    | (some m, s1) => (⟨s1, (c, m.id) :: st.cache⟩, m.id)
    | (none, s1) =>
      let mid := s1.nextMatId
      let mat := mkMaterial mid name c use_nodes
      (⟨{ s1 with materials := s1.materials ++ [mat]
                  nextMatId := mid + 1
                  events := s1.events ++ [.matCreate mid name] },
        (c, mid) :: st.cache⟩, mid)

/-- The Python expression int(q * 255) for an exact rational sample q:
the product q * 255 is the exact rational (num * 255) / den, and Python
int() truncates toward zero, which is truncating integer division of the
scaled numerator by the denominator. -/
def pyInt255 (q : ℚ) : ℤ :=
  Int.tdiv (q.num * 255) (q.den : ℤ)

/-- Uppercase hexadecimal digit character for a value below 16. -/
def hexChar (n : Nat) : Char :=
  if n < 10 then Char.ofNat (48 + n) else Char.ofNat (55 + n)

/-- Fueled accumulation of the hexadecimal digits of a natural number,
most significant first; the fuel is always supplied large enough. -/
def hexDigitsAux : Nat → Nat → List Char → List Char
  | 0, _, acc => acc
  | fuel + 1, n, acc =>
    if n = 0 then acc else hexDigitsAux fuel (n / 16) (hexChar (n % 16) :: acc)

/-- Hexadecimal digits of a natural number, at least one digit. -/
def pyHexDigits (n : Nat) : List Char :=
  if n = 0 then ['0'] else hexDigitsAux (n + 1) n []

/-- Zero padding on the left up to a target width. -/
def padHex (w : Nat) (ds : List Char) : List Char :=
  List.replicate (w - ds.length) '0' ++ ds

/-- The Python expression percent-02X applied to an integer: uppercase hex
digits zero-padded to width 2, the sign counting toward the width. -/
def pyPct02X (n : ℤ) : String :=
  if n < 0 then String.mk ('-' :: padHex 1 (pyHexDigits n.natAbs))
  else String.mk (padHex 2 (pyHexDigits n.toNat))

/-- Exactly two uppercase hexadecimal digits of a byte value. -/
def hex2 (n : Nat) : String :=
  String.mk [hexChar (n / 16), hexChar (n % 16)]

/-- Uppercase hexadecimal digit characters. -/
def isHexUpper (ch : Char) : Prop :=
  ch ∈ ("0123456789ABCDEF".data)

instance isHexUpperDec (ch : Char) : Decidable (isHexUpper ch) :=
  inferInstanceAs (Decidable (ch ∈ ("0123456789ABCDEF".data)))

/-- The {color} rendering of the source: percent-02X of int(channel*255)
for r, g, b, a in that order. -/
def strcolorOf (c : Color) : String :=
  pyPct02X (pyInt255 c.1) ++ pyPct02X (pyInt255 c.2.1)
    ++ pyPct02X (pyInt255 c.2.2.1) ++ pyPct02X (pyInt255 c.2.2.2)

/-- The struse_nodes value of the source. -/
def struse_nodes (use_nodes : Bool) : String :=
  if use_nodes then "nodes" else ""

/-- Accumulating scan for the component after the last path separator. -/
def basenameAux : List Char → List Char → List Char
  | [], acc => acc.reverse
  | c :: rest, acc => if c = '/' then basenameAux rest [] else basenameAux rest (c :: acc)

/-- os.path.split(filepath)[1] for POSIX paths: everything after the last
path separator. -/
def basename (p : String) : String :=
  String.mk (basenameAux p.data [])

/-- Default group-node name template of the source. -/
def PARENT_NAME : String := "\x7bfilename\x7d"

/-- Default material name template of the source. -/
def MATERIAL_NAME : String := "pixel_art_\x7bcolor\x7d"

/-- Default cube object name template of the source. -/
def CUBE_NAME : String := "\x7bfilename\x7d_\x7bx\x7d_\x7by\x7d"

/-- Default mesh name template of the source. -/
def MESH_NAME : String := "\x7bfilename\x7d_\x7bx\x7d_\x7by\x7d_mesh"

/-- Operator configuration: the two toggles and the four name templates,
with the defaults of the source. -/
structure Config where
  use_nodes : Bool := true
  reuse_materials : Bool := false
  material_name : String := MATERIAL_NAME
  cube_name : String := CUBE_NAME
  mesh_name : String := MESH_NAME
  parent_name : String := PARENT_NAME
deriving DecidableEq

/-- Keyword parameters supplied when formatting the group-node template
during conversion. -/
def parentParams (filename : String) (un : String) : List (String × String) :=
  [("filename", filename), ("use_nodes", un)]

/-- Keyword parameters supplied when formatting the material, mesh and
cube templates during conversion. -/
def pixParams (filename : String) (strcolor : String) (x y : Nat) (un : String) :
    List (String × String) :=
  [("filename", filename), ("color", strcolor), ("x", toString x), ("y", toString y),
   ("use_nodes", un)]

/-- Validation parameters of execute for the group-node template. -/
def valParentParams : List (String × String) :=
  [("filename", ""), ("use_nodes", "")]

/-- Validation parameters of execute for the per-pixel templates. -/
def valPixParams : List (String × String) :=
  [("filename", ""), ("color", "AABBCCDD"), ("x", "0"), ("y", "0"), ("use_nodes", "")]

/-- All four template validations of execute succeed. -/
def TemplatesOk (cfg : Config) : Prop :=
  fmtOk (pyFormat cfg.parent_name valParentParams) = true ∧
  fmtOk (pyFormat cfg.material_name valPixParams) = true ∧
  fmtOk (pyFormat cfg.mesh_name valPixParams) = true ∧
  fmtOk (pyFormat cfg.cube_name valPixParams) = true

/-- The validation loop of execute: the four templates in source order,
each with its label and validation parameters. -/
def validationItems (cfg : Config) : List (String × String × List (String × String)) :=
  [("object name", cfg.parent_name, valParentParams),
   ("material names", cfg.material_name, valPixParams),
   ("mesh names", cfg.mesh_name, valPixParams),
   ("pixel names", cfg.cube_name, valPixParams)]

/-- Runs the validation items in order and produces the first reported
error message, if any. -/
def validateList : List (String × String × List (String × String)) → Option String
  | [] => none
  | (label, tmpl, ps) :: rest =>
    match pyFormat tmpl ps with
    | .error (.valueError m) => some ("Format error in " ++ label ++ ": " ++ m)
    | .error (.keyError k) => some ("Illegal key used in " ++ label ++ ": " ++ k)
    | .ok _ => validateList rest

/-- Reading one sample of the pixel buffer; out of range raises
IndexError as Python list indexing does. -/
def getPixel (px : List ℚ) (i : Nat) : Except PyErr ℚ :=
  match px[i]? with
  | some v => .ok v
  | none => .error .indexError

/-- The per-pixel channel reads of the source: grayscale replicates the
single sample, 3-channel images get alpha 1 (the loop-initial value of
`a`), 4-channel images read all four samples. -/
def pixelColor (img : Image) (x y : Nat) : Except PyErr Color := do
  let offset := y * img.channels * img.width
  if img.channels = 1 then
    let v ← getPixel img.pixels (offset + x)
    pure (v, v, v, 1)
  else if img.channels = 3 then
    let index := offset + x * img.channels
    let r ← getPixel img.pixels index
    let g ← getPixel img.pixels (index + 1)
    let b ← getPixel img.pixels (index + 2)
    pure (r, g, b, 1)
  else
    let index := offset + x * img.channels
    let r ← getPixel img.pixels index
    let g ← getPixel img.pixels (index + 1)
    let b ← getPixel img.pixels (index + 2)
    let a ← getPixel img.pixels (index + 3)
    pure (r, g, b, a)

/-- Total description of the color tuple read at a pixel, defaulting
out-of-range samples to 0; agrees with pixelColor on well-formed images. -/
def colorAt (img : Image) (x y : Nat) : Color :=
  let offset := y * img.channels * img.width
  if img.channels = 1 then
    let v := img.pixels.getD (offset + x) 0
    (v, v, v, 1)
  else if img.channels = 3 then
    let index := offset + x * img.channels
    (img.pixels.getD index 0, img.pixels.getD (index + 1) 0, img.pixels.getD (index + 2) 0, 1)
  else
    let index := offset + x * img.channels
    (img.pixels.getD index 0, img.pixels.getD (index + 1) 0, img.pixels.getD (index + 2) 0,
     img.pixels.getD (index + 3) 0)

/-- The body of the pixel loop for the pixel at column x, row y. -/
def processPixel (cfg : Config) (img : Image) (filename : String) (parentId : Nat)
    (x y : Nat) (st : RunState) : PyResult RunState :=
  match pixelColor img x y with
  | .error e => .err e st
  | .ok c =>
    if img.channels = 4 ∧ c.2.2.2 = 0 then .ok st
    else
      let params := pixParams filename (strcolorOf c) x y (struse_nodes cfg.use_nodes)
      match pyFormat cfg.material_name params with
      | .error e => .err e.toPy st
      | .ok matName =>
        let r1 := resolveMaterial cfg.reuse_materials cfg.use_nodes matName c st
        match pyFormat cfg.mesh_name params with
        | .error e => .err e.toPy r1.1
        | .ok meshNm =>
          let r2 := newCubeMesh r1.1.scene meshNm r1.2
          match pyFormat cfg.cube_name params with
          | .error e => .err e.toPy ⟨r2.1, r1.1.cache⟩
          | .ok cubeNm =>
            .ok ⟨newCubeObject r2.1 cubeNm r2.2 x y parentId, r1.1.cache⟩

/-- The nested row-major pixel loops of the source. -/
def processRows (cfg : Config) (img : Image) (filename : String) (parentId : Nat)
    (st : RunState) : PyResult RunState :=
  foldPy (fun st y =>
      foldPy (fun st x => processPixel cfg img filename parentId x y st) st
        (List.range img.width))
    st (List.range img.height)

/-- The try block of read_pixel_art: channel check, group-node creation
and the pixel loop. -/
def runBody (cfg : Config) (img : Image) (filename : String) (s : Scene) : PyResult Scene :=
  if img.channels = 1 ∨ img.channels = 3 ∨ img.channels = 4 then
    match pyFormat cfg.parent_name (parentParams filename (struse_nodes cfg.use_nodes)) with
    | .error e => .err e.toPy s
    | .ok pname =>
      match processRows cfg img filename (newEmptyObject s pname).2
          ⟨linkToCollection (newEmptyObject s pname).1 (newEmptyObject s pname).2, []⟩ with
      | .ok st => .ok st.scene
      | .err e st => .err e st.scene
  else
    .err (.ioError ("Cannot handle image with " ++ toString img.channels ++ " channels!")) s

/-- The read_pixel_art function: loads the image, runs the body, and in a
finally block releases the image on every exit path. -/
def read_pixel_art (cfg : Config) (img : Image) (filepath : String) (s0 : Scene) :
    PyResult Scene :=
  match runBody cfg img (basename filepath) (logEv s0 .imageLoad) with
  | .ok s => .ok (releaseImage s)
  | .err e s => .err e (releaseImage s)

/-- Outcome of the operator execute method: a returned status, or an
exception propagated to the host; both carry the scene state at exit. -/
inductive ExecResult where
  | done (s : Scene) (r : OpResult)
  | raised (e : PyErr) (s : Scene)
deriving DecidableEq

/-- The execute method of the operator: validate the four templates first,
reporting and cancelling on the first failure before any scene mutation;
otherwise run the conversion. -/
def execute (cfg : Config) (filepath : String) (img : Image) (s0 : Scene) : ExecResult :=
  match validateList (validationItems cfg) with
  | some msg => .done (logEv s0 (.report msg)) .CANCELLED
  | none =>
    match read_pixel_art cfg img filepath s0 with
    | .ok s => .done s .FINISHED
    | .err e s => .raised e s

/-- A pixel is skipped by the loop iff the image has 4 channels and the
alpha sample is exactly 0. -/
def skipB (img : Image) (p : Nat × Nat) : Bool :=
  decide (img.channels = 4 ∧ (colorAt img p.1 p.2).2.2.2 = 0)

/-- The pixels of a coordinate list that produce a cube. -/
def incl (img : Image) (ps : List (Nat × Nat)) : List (Nat × Nat) :=
  ps.filter (fun p => !skipB img p)

/-- Row-major coordinate list (x, y) of the whole image, y outer. -/
def gridList (img : Image) : List (Nat × Nat) :=
  (List.range img.height).flatMap (fun y => (List.range img.width).map (fun x => (x, y)))

/-- Color tuples of the included pixels of a coordinate list. -/
def colorsOfList (img : Image) (ps : List (Nat × Nat)) : List Color :=
  (incl img ps).map (fun p => colorAt img p.1 p.2)

/-- Number of distinct included colors of a coordinate list not already
bound in a given cache. -/
def newColorCount (img : Image) (cache : List (Color × Nat)) (ps : List (Nat × Nat)) : Nat :=
  ((colorsOfList img ps).filter (fun c => (lookupC cache c).isNone)).toFinset.card

/-- Color tuples of all pixels of the image, row-major. -/
def allColors (img : Image) : List Color :=
  (gridList img).map (fun p => colorAt img p.1 p.2)

/-- Number of distinct exact color tuples of the image. -/
def distinctColorCount (img : Image) : Nat :=
  (allColors img).toFinset.card

/-- Invariant of the run-local cache: bound material ids are below the
fresh-id counter, and entries have pairwise distinct keys and values. -/
def CacheWF (st : RunState) : Prop :=
  (∀ e ∈ st.cache, e.2 < st.scene.nextMatId) ∧
  st.cache.Pairwise (fun a b => a.1 ≠ b.1 ∧ a.2 ≠ b.2)

/-- Events that are not image lifecycle events. -/
def EvOK (e : Ev) : Prop :=
  e ≠ .imageLoad ∧ e ≠ .imageUserClear ∧ e ≠ .imageRemove

/-- The exact rational 1/512, built directly so that it evaluates inside
the kernel; its red channel contribution floors to hex byte 00 although it
differs from 0. -/
def q512 : ℚ := ⟨1, 512, by decide, Nat.coprime_one_left 512⟩

/-- One scene extends another by appending only non-lifecycle events to
the trace. -/
def EvExt (s s2 : Scene) : Prop :=
  ∃ t, s2.events = s.events ++ t ∧ ∀ e ∈ t, EvOK e

theorem fmtOk_map (f : List Char → β) (r : Except FmtErr (List Char)) :
    fmtOk (Except.map f r) = fmtOk r := by
  cases r <;> rfl

theorem fmtOk_exists {r : Except FmtErr α} (h : fmtOk r = true) : ∃ v, r = .ok v := by
  cases r with
  | ok v => exact ⟨v, rfl⟩
  | error e => simp [fmtOk] at h

theorem foldPy_append (f : σ → α → PyResult σ) (s : σ) (l1 l2 : List α) :
    foldPy f s (l1 ++ l2) = (foldPy f s l1).andThen (fun s2 => foldPy f s2 l2) := by
  induction l1 generalizing s with
  | nil => rfl
  | cons a rest ih =>
    simp only [List.cons_append, foldPy]
    cases f s a with
    | ok s1 => exact ih s1
    | err e s1 => rfl

theorem foldPy_map (f : σ → β → PyResult σ) (g : α → β) (s : σ) (l : List α) :
    foldPy f s (l.map g) = foldPy (fun s a => f s (g a)) s l := by
  induction l generalizing s with
  | nil => rfl
  | cons a rest ih =>
    simp only [List.map_cons, foldPy]
    cases f s (g a) with
    | ok s1 => exact ih s1
    | err e s1 => rfl

theorem foldPy_nested (f : σ → α → β → PyResult σ) (ys : List β) (xs : List α) (s : σ) :
    foldPy (fun s y => foldPy (fun s x => f s x y) s xs) s ys
      = foldPy (fun s p => f s p.1 p.2) s (ys.flatMap (fun y => xs.map (fun x => (x, y)))) := by
  induction ys generalizing s with
  | nil => rfl
  | cons y rest ih =>
    rw [List.flatMap_cons, foldPy_append, foldPy_map]
    simp only [foldPy]
    cases foldPy (fun s x => f s x y) s xs with
    | ok s1 => exact ih s1
    | err e s1 => rfl

theorem foldPy_err (f : σ → α → PyResult σ) (l : List α) (s s2 : σ) (e : PyErr)
    (h : foldPy f s l = .err e s2) :
    ∃ s0 a s1, a ∈ l ∧ f s0 a = .err e s1 := by
  induction l generalizing s with
  | nil => exact absurd h (by simp [foldPy])
  | cons a rest ih =>
    simp only [foldPy] at h
    cases hf : f s a with
    | ok s1 =>
      rw [hf] at h
      obtain ⟨s0, b, s3, hb, hfb⟩ := ih s1 h
      exact ⟨s0, b, s3, List.mem_cons_of_mem _ hb, hfb⟩
    | err e2 s1 =>
      rw [hf] at h
      cases h
      exact ⟨s, a, _, List.mem_cons_self _ _, hf⟩

theorem foldPy_rel (R : σ → σ → Prop) (hrefl : ∀ s, R s s)
    (htrans : ∀ a b c, R a b → R b c → R a c)
    (f : σ → α → PyResult σ) (hf : ∀ s a, R s (f s a).stateOf) :
    ∀ l s, R s (foldPy f s l).stateOf := by
  intro l
  induction l with
  | nil => intro s; exact hrefl s
  | cons a rest ih =>
    intro s
    have h1 := hf s a
    simp only [foldPy]
    cases hfa : f s a with
    | ok s1 =>
      rw [hfa] at h1
      exact htrans _ _ _ h1 (ih s1)
    | err e s1 =>
      rw [hfa] at h1
      exact h1

theorem lookupParam_isSome (ps : List (String × String)) (k : String) :
    (lookupParam ps k).isSome = (keysOf ps).contains k := by
  induction ps with
  | nil => rfl
  | cons e rest ih =>
    simp only [lookupParam, keysOf, List.map_cons, List.contains_cons]
    by_cases h : e.1 = k
    · simp [h]
    · simp only [if_neg h]
      rw [ih]
      simp only [keysOf]
      have : (k == e.1) = false := by
        simp only [beq_eq_false_iff_ne, ne_eq]
        exact fun hk => h hk.symm
      rw [this]
      simp

theorem fmtGo_congr (p1 p2 : List (String × String))
    (h : ∀ k, (lookupParam p1 k).isSome = (lookupParam p2 k).isSome) :
    ∀ (fuel : Nat) (cs : List Char) (mode : Option (List Char)),
      fmtOk (fmtGo p1 fuel cs mode) = fmtOk (fmtGo p2 fuel cs mode) := by
  intro fuel
  induction fuel with
  | zero => intro cs mode; rfl
  | succ fuel ih =>
    intro cs mode
    match cs, mode with
    | [], none => rfl
    | [], some _ => rfl
    | c :: rest, some acc =>
      simp only [fmtGo]
      by_cases hc : c = '\x7d'
      · simp only [if_pos hc]
        have hk := h (String.mk acc.reverse)
        cases h1 : lookupParam p1 (String.mk acc.reverse) with
        | none =>
          cases h2 : lookupParam p2 (String.mk acc.reverse) with
          | none => rfl
          | some v => rw [h1, h2] at hk; simp at hk
        | some v =>
          cases h2 : lookupParam p2 (String.mk acc.reverse) with
          | none => rw [h1, h2] at hk; simp at hk
          | some w => rw [fmtOk_map, fmtOk_map]; exact ih rest none
      · simp only [if_neg hc]
        exact ih rest (some (c :: acc))
    | c :: rest, none =>
      simp only [fmtGo]
      by_cases hb : c = '\x7b'
      · simp only [if_pos hb]
        match rest with
        | [] => exact ih [] (some [])
        | c2 :: rest2 =>
          by_cases hb2 : c2 = '\x7b'
          · simp only [if_pos hb2, fmtOk_map]
            exact ih rest2 none
          · simp only [if_neg hb2]
            exact ih (c2 :: rest2) (some [])
      · simp only [if_neg hb]
        by_cases hd : c = '\x7d'
        · simp only [if_pos hd]
          match rest with
          | [] => rfl
          | c2 :: rest2 =>
            by_cases hd2 : c2 = '\x7d'
            · simp only [if_pos hd2, fmtOk_map]
              exact ih rest2 none
            · simp only [if_neg hd2]
        · simp only [if_neg hd, fmtOk_map]
          exact ih rest none

theorem pyFormat_ok_congr (t : String) (p1 p2 : List (String × String))
    (h : keysOf p1 = keysOf p2) : fmtOk (pyFormat t p1) = fmtOk (pyFormat t p2) := by
  simp only [pyFormat, fmtOk_map]
  exact fmtGo_congr p1 p2
    (fun k => by rw [lookupParam_isSome, lookupParam_isSome, h]) (t.data.length + 1) t.data none

theorem keysOf_pixParams (f s : String) (x y : Nat) (u : String) :
    keysOf (pixParams f s x y u) = keysOf valPixParams := rfl

theorem keysOf_parentParams (f u : String) :
    keysOf (parentParams f u) = keysOf valParentParams := rfl

theorem idx_lt (w h c x y r : Nat) (hx : x < w) (hy : y < h) (hr : r < c) :
    y * c * w + x * c + r < w * h * c := by
  have h1 : y * c * w + x * c + r < y * c * w + (x + 1) * c := by nlinarith
  have h2 : y * c * w + (x + 1) * c ≤ (y * w + w) * c := by nlinarith
  have h3 : (y * w + w) * c ≤ w * h * c := by
    have hyw : y * w + w ≤ h * w := by
      have : (y + 1) * w ≤ h * w := Nat.mul_le_mul_right w hy
      nlinarith
    calc (y * w + w) * c ≤ h * w * c := Nat.mul_le_mul_right c hyw
      _ = w * h * c := by ring
  omega

theorem getPixel_ok (px : List ℚ) (i : Nat) (h : i < px.length) :
    getPixel px i = .ok (px.getD i 0) := by
  simp only [getPixel]
  rw [List.getElem?_eq_getElem h]
  simp [List.getD_eq_getElem?_getD, List.getElem?_eq_getElem h]

theorem getPixel_err (px : List ℚ) (i : Nat) (e : PyErr) (h : getPixel px i = .error e) :
    e = .indexError := by
  simp only [getPixel] at h
  cases h2 : px[i]? with
  | none => rw [h2] at h; cases h; rfl
  | some v => rw [h2] at h; cases h

theorem pixelColor_eq (img : Image) (x y : Nat) (hwf : WF img)
    (hch : img.channels = 1 ∨ img.channels = 3 ∨ img.channels = 4)
    (hx : x < img.width) (hy : y < img.height) :
    pixelColor img x y = .ok (colorAt img x y) := by
  have hw : img.pixels.length = img.width * img.height * img.channels := hwf
  rcases hch with h1 | h3 | h4
  · have k0 : getPixel img.pixels (y * 1 * img.width + x)
        = .ok (img.pixels.getD (y * 1 * img.width + x) 0) :=
      getPixel_ok _ _ (by
        rw [hw, h1]
        have := idx_lt img.width img.height 1 x y 0 hx hy (by omega)
        omega)
    simp only [pixelColor, colorAt, h1, reduceIte]
    rw [k0]
    rfl
  · have k0 : getPixel img.pixels (y * 3 * img.width + x * 3)
        = .ok (img.pixels.getD (y * 3 * img.width + x * 3) 0) :=
      getPixel_ok _ _ (by
        rw [hw, h3]
        have := idx_lt img.width img.height 3 x y 0 hx hy (by omega)
        omega)
    have k1 : getPixel img.pixels (y * 3 * img.width + x * 3 + 1)
        = .ok (img.pixels.getD (y * 3 * img.width + x * 3 + 1) 0) :=
      getPixel_ok _ _ (by
        rw [hw, h3]
        have := idx_lt img.width img.height 3 x y 1 hx hy (by omega)
        omega)
    have k2 : getPixel img.pixels (y * 3 * img.width + x * 3 + 2)
        = .ok (img.pixels.getD (y * 3 * img.width + x * 3 + 2) 0) :=
      getPixel_ok _ _ (by
        rw [hw, h3]
        have := idx_lt img.width img.height 3 x y 2 hx hy (by omega)
        omega)
    simp only [pixelColor, colorAt, h3, reduceIte]
    rw [k0, k1, k2]
    rfl
  · have k0 : getPixel img.pixels (y * 4 * img.width + x * 4)
        = .ok (img.pixels.getD (y * 4 * img.width + x * 4) 0) :=
      getPixel_ok _ _ (by
        rw [hw, h4]
        have := idx_lt img.width img.height 4 x y 0 hx hy (by omega)
        omega)
    have k1 : getPixel img.pixels (y * 4 * img.width + x * 4 + 1)
        = .ok (img.pixels.getD (y * 4 * img.width + x * 4 + 1) 0) :=
      getPixel_ok _ _ (by
        rw [hw, h4]
        have := idx_lt img.width img.height 4 x y 1 hx hy (by omega)
        omega)
    have k2 : getPixel img.pixels (y * 4 * img.width + x * 4 + 2)
        = .ok (img.pixels.getD (y * 4 * img.width + x * 4 + 2) 0) :=
      getPixel_ok _ _ (by
        rw [hw, h4]
        have := idx_lt img.width img.height 4 x y 2 hx hy (by omega)
        omega)
    have k3 : getPixel img.pixels (y * 4 * img.width + x * 4 + 3)
        = .ok (img.pixels.getD (y * 4 * img.width + x * 4 + 3) 0) :=
      getPixel_ok _ _ (by
        rw [hw, h4]
        have := idx_lt img.width img.height 4 x y 3 hx hy (by omega)
        omega)
    simp only [pixelColor, colorAt, h4, reduceIte]
    rw [k0, k1, k2, k3]
    rfl

theorem exbind_err (m : Except PyErr α) (f : α → Except PyErr β) (e : PyErr)
    (h : (m >>= f) = .error e) : m = .error e ∨ ∃ v, m = .ok v ∧ f v = .error e := by
  cases m with
  | ok v => right; exact ⟨v, rfl, h⟩
  | error e2 => left; cases h; rfl

theorem pixelColor_err (img : Image) (x y : Nat) (e : PyErr)
    (h : pixelColor img x y = .error e) : e = .indexError := by
  simp only [pixelColor] at h
  split at h
  · rcases exbind_err _ _ _ h with h2 | ⟨v, _, h2⟩
    · exact getPixel_err _ _ _ h2
    · cases h2
  · split at h
    · rcases exbind_err _ _ _ h with h2 | ⟨v, hv, h2⟩
      · exact getPixel_err _ _ _ h2
      · rcases exbind_err _ _ _ h2 with h3 | ⟨w, hw, h3⟩
        · exact getPixel_err _ _ _ h3
        · rcases exbind_err _ _ _ h3 with h4 | ⟨u, hu, h4⟩
          · exact getPixel_err _ _ _ h4
          · cases h4
    · rcases exbind_err _ _ _ h with h2 | ⟨v, hv, h2⟩
      · exact getPixel_err _ _ _ h2
      · rcases exbind_err _ _ _ h2 with h3 | ⟨w, hw, h3⟩
        · exact getPixel_err _ _ _ h3
        · rcases exbind_err _ _ _ h3 with h4 | ⟨u, hu, h4⟩
          · exact getPixel_err _ _ _ h4
          · rcases exbind_err _ _ _ h4 with h5 | ⟨t, ht, h5⟩
            · exact getPixel_err _ _ _ h5
            · cases h5

theorem evExt_refl (s : Scene) : EvExt s s :=
  ⟨[], by simp, by simp⟩

theorem evExt_trans {a b c : Scene} (h1 : EvExt a b) (h2 : EvExt b c) : EvExt a c := by
  obtain ⟨t1, he1, ho1⟩ := h1
  obtain ⟨t2, he2, ho2⟩ := h2
  refine ⟨t1 ++ t2, ?_, ?_⟩
  · rw [he2, he1, List.append_assoc]
  · intro e he
    rcases List.mem_append.mp he with h | h
    · exact ho1 e h
    · exact ho2 e h

theorem evExt_fields {s s2 : Scene} (t : List Ev) (he : s2.events = s.events ++ t)
    (ho : ∀ e ∈ t, EvOK e) : EvExt s s2 :=
  ⟨t, he, ho⟩

theorem evExt_resolveMaterial (r u : Bool) (name : String) (c : Color) (st : RunState) :
    EvExt st.scene (resolveMaterial r u name c st).1.scene := by
  simp only [resolveMaterial]
  cases h : lookupC st.cache c with
  | some mid =>
    exact evExt_fields [.cacheLookup c] (by simp [logEv]) (by intro e he; simp at he; simp [he, EvOK])
  | none =>
    cases r with
    | false =>
      refine evExt_fields [.cacheLookup c, .matCreate st.scene.nextMatId name] ?_ ?_
      · simp [logEv]
      · intro e he
        rcases List.mem_cons.mp he with h | h
        · simp [h, EvOK]
        · simp at h; simp [h, EvOK]
    | true =>
      cases hg : registryGet (logEv (logEv st.scene (.cacheLookup c)) (.registryLookup name)) name with
      | some m =>
        simp only [hg]
        refine evExt_fields [.cacheLookup c, .registryLookup name] ?_ ?_
        · simp [logEv]
        · intro e he
          rcases List.mem_cons.mp he with h | h
          · simp [h, EvOK]
          · simp at h; simp [h, EvOK]
      | none =>
        simp only [hg]
        refine evExt_fields
          [.cacheLookup c, .registryLookup name, .matCreate st.scene.nextMatId name] ?_ ?_
        · simp [logEv]
        · intro e he
          rcases List.mem_cons.mp he with h | h
          · simp [h, EvOK]
          · rcases List.mem_cons.mp h with h2 | h2
            · simp [h2, EvOK]
            · simp at h2; simp [h2, EvOK]

theorem evExt_newCubeMesh (s : Scene) (name : String) (matId : Nat) :
    EvExt s (newCubeMesh s name matId).1 :=
  evExt_fields [.meshCreate s.nextMeshId name] (by simp [newCubeMesh])
    (by intro e he; simp at he; simp [he, EvOK])

theorem evExt_newCubeObject (s : Scene) (name : String) (meshId x y parentId : Nat) :
    EvExt s (newCubeObject s name meshId x y parentId) := by
  refine evExt_fields [.objCreate s.nextObjId name, .collectionLink s.nextObjId] ?_ ?_
  · simp [newCubeObject, linkToCollection]
  · intro e he
    rcases List.mem_cons.mp he with h | h
    · simp [h, EvOK]
    · simp at h; simp [h, EvOK]

theorem processPixel_evExt (cfg : Config) (img : Image) (fn : String) (pid x y : Nat)
    (st : RunState) :
    EvExt st.scene (processPixel cfg img fn pid x y st).stateOf.scene := by
  simp only [processPixel]
  cases hpc : pixelColor img x y with
  | error e => exact evExt_refl _
  | ok c =>
    by_cases hskip : img.channels = 4 ∧ c.2.2.2 = 0
    · simp only [if_pos hskip]; exact evExt_refl _
    · simp only [if_neg hskip]
      cases hm : pyFormat cfg.material_name
          (pixParams fn (strcolorOf c) x y (struse_nodes cfg.use_nodes)) with
      | error e => exact evExt_refl _
      | ok matName =>
        have e1 := evExt_resolveMaterial cfg.reuse_materials cfg.use_nodes matName c st
        cases hs : pyFormat cfg.mesh_name
            (pixParams fn (strcolorOf c) x y (struse_nodes cfg.use_nodes)) with
        | error e => exact e1
        | ok meshNm =>
          have e2 := evExt_newCubeMesh
            (resolveMaterial cfg.reuse_materials cfg.use_nodes matName c st).1.scene meshNm
            (resolveMaterial cfg.reuse_materials cfg.use_nodes matName c st).2
          cases hc : pyFormat cfg.cube_name
              (pixParams fn (strcolorOf c) x y (struse_nodes cfg.use_nodes)) with
          | error e => exact evExt_trans e1 e2
          | ok cubeNm =>
            exact evExt_trans (evExt_trans e1 e2) (evExt_newCubeObject _ cubeNm _ x y pid)

theorem processPixel_skip (cfg : Config) (img : Image) (fn : String) (pid x y : Nat)
    (st : RunState) (c : Color) (hpc : pixelColor img x y = .ok c)
    (h4 : img.channels = 4) (ha : c.2.2.2 = 0) :
    processPixel cfg img fn pid x y st = .ok st := by
  simp [processPixel, hpc, h4, ha]

theorem processPixel_run (cfg : Config) (img : Image) (fn : String) (pid x y : Nat)
    (st : RunState) (c : Color)
    (hpc : pixelColor img x y = .ok c)
    (hskip : ¬(img.channels = 4 ∧ c.2.2.2 = 0))
    (hm : fmtOk (pyFormat cfg.material_name
      (pixParams fn (strcolorOf c) x y (struse_nodes cfg.use_nodes))) = true)
    (hs : fmtOk (pyFormat cfg.mesh_name
      (pixParams fn (strcolorOf c) x y (struse_nodes cfg.use_nodes))) = true)
    (hc : fmtOk (pyFormat cfg.cube_name
      (pixParams fn (strcolorOf c) x y (struse_nodes cfg.use_nodes))) = true) :
    ∃ matName meshNm cubeNm,
      processPixel cfg img fn pid x y st =
        .ok ⟨newCubeObject
              (newCubeMesh (resolveMaterial cfg.reuse_materials cfg.use_nodes matName c st).1.scene
                meshNm (resolveMaterial cfg.reuse_materials cfg.use_nodes matName c st).2).1
              cubeNm
              (newCubeMesh (resolveMaterial cfg.reuse_materials cfg.use_nodes matName c st).1.scene
                meshNm (resolveMaterial cfg.reuse_materials cfg.use_nodes matName c st).2).2
              x y pid,
             (resolveMaterial cfg.reuse_materials cfg.use_nodes matName c st).1.cache⟩ := by
  obtain ⟨mn, hmn⟩ := fmtOk_exists hm
  obtain ⟨sn, hsn⟩ := fmtOk_exists hs
  obtain ⟨cn, hcn⟩ := fmtOk_exists hc
  refine ⟨mn, sn, cn, ?_⟩
  simp only [processPixel, hpc, hmn, hsn, hcn, if_neg hskip]

theorem processPixel_err (cfg : Config) (img : Image) (fn : String) (pid x y : Nat)
    (st st2 : RunState) (c : Color) (e : PyErr)
    (hm : fmtOk (pyFormat cfg.material_name
      (pixParams fn (strcolorOf c) x y (struse_nodes cfg.use_nodes))) = true)
    (hs : fmtOk (pyFormat cfg.mesh_name
      (pixParams fn (strcolorOf c) x y (struse_nodes cfg.use_nodes))) = true)
    (hc : fmtOk (pyFormat cfg.cube_name
      (pixParams fn (strcolorOf c) x y (struse_nodes cfg.use_nodes))) = true)
    (hpc : ∀ e2, pixelColor img x y = .error e2 → e2 = .indexError)
    (hcv : ∀ c2, pixelColor img x y = .ok c2 → c2 = c)
    (h : processPixel cfg img fn pid x y st = .err e st2) : e = .indexError := by
  simp only [processPixel] at h
  cases hpcv : pixelColor img x y with
  | error e2 =>
    rw [hpcv] at h
    cases h
    exact hpc _ hpcv
  | ok c2 =>
    have hcc : c2 = c := hcv c2 hpcv
    subst hcc
    rw [hpcv] at h
    dsimp only at h
    by_cases hskip : img.channels = 4 ∧ c2.2.2.2 = 0
    · rw [if_pos hskip] at h; cases h
    · rw [if_neg hskip] at h
      obtain ⟨mn, hmn⟩ := fmtOk_exists hm
      obtain ⟨sn, hsn⟩ := fmtOk_exists hs
      obtain ⟨cn, hcn⟩ := fmtOk_exists hc
      rw [hmn, hsn, hcn] at h
      cases h

theorem resolveMaterial_hit (r u : Bool) (name : String) (c : Color) (st : RunState) (mid : Nat)
    (h : lookupC st.cache c = some mid) :
    resolveMaterial r u name c st = (⟨logEv st.scene (.cacheLookup c), st.cache⟩, mid) := by
  simp [resolveMaterial, h]

theorem resolveMaterial_miss_noreuse (u : Bool) (name : String) (c : Color) (st : RunState)
    (h : lookupC st.cache c = none) :
    resolveMaterial false u name c st =
      (⟨{ st.scene with
            materials := st.scene.materials ++ [mkMaterial st.scene.nextMatId name c u]
            nextMatId := st.scene.nextMatId + 1
            events := st.scene.events ++ [.cacheLookup c, .matCreate st.scene.nextMatId name] },
        (c, st.scene.nextMatId) :: st.cache⟩, st.scene.nextMatId) := by
  simp [resolveMaterial, h, logEv]

theorem resolveMaterial_reuse_found (u : Bool) (name : String) (c : Color) (st : RunState)
    (m : Material) (h : lookupC st.cache c = none)
    (hg : registryGet st.scene name = some m) :
    resolveMaterial true u name c st =
      (⟨{ st.scene with
            events := st.scene.events ++ [.cacheLookup c, .registryLookup name] },
        (c, m.id) :: st.cache⟩, m.id) := by
  have hg2 : st.scene.materials.find? (fun m2 => m2.name = name) = some m := hg
  simp [resolveMaterial, h, logEv, registryGet, hg2]

theorem resolveMaterial_reuse_notfound (u : Bool) (name : String) (c : Color) (st : RunState)
    (h : lookupC st.cache c = none)
    (hg : registryGet st.scene name = none) :
    resolveMaterial true u name c st =
      (⟨{ st.scene with
            materials := st.scene.materials ++ [mkMaterial st.scene.nextMatId name c u]
            nextMatId := st.scene.nextMatId + 1
            events := st.scene.events
              ++ [.cacheLookup c, .registryLookup name, .matCreate st.scene.nextMatId name] },
        (c, st.scene.nextMatId) :: st.cache⟩, st.scene.nextMatId) := by
  have hg2 : st.scene.materials.find? (fun m2 => m2.name = name) = none := hg
  simp [resolveMaterial, h, logEv, registryGet, hg2]

theorem lookupC_none_ne (cache : List (Color × Nat)) (c : Color)
    (h : lookupC cache c = none) : ∀ e ∈ cache, e.1 ≠ c := by
  induction cache with
  | nil => intro e he; cases he
  | cons a rest ih =>
    intro e he
    simp only [lookupC] at h
    by_cases ha : a.1 = c
    · rw [if_pos ha] at h; cases h
    · rw [if_neg ha] at h
      rcases List.mem_cons.mp he with h2 | h2
      · rw [h2]; exact ha
      · exact ih h e h2

theorem lookupC_some_mem (cache : List (Color × Nat)) (c : Color) (v : Nat)
    (h : lookupC cache c = some v) : (c, v) ∈ cache := by
  induction cache with
  | nil => cases h
  | cons a rest ih =>
    simp only [lookupC] at h
    by_cases ha : a.1 = c
    · rw [if_pos ha] at h
      cases h
      subst ha
      simp
    · rw [if_neg ha] at h
      exact List.mem_cons_of_mem _ (ih h)

theorem lookupC_cons_self (cache : List (Color × Nat)) (c : Color) (v : Nat) :
    lookupC ((c, v) :: cache) c = some v := by
  simp [lookupC]

theorem lookupC_cons_preserve (cache : List (Color × Nat)) (c c2 : Color) (v mid : Nat)
    (h : lookupC cache c = none) (h2 : lookupC cache c2 = some v) :
    lookupC ((c, mid) :: cache) c2 = some v := by
  simp only [lookupC]
  by_cases hc : c = c2
  · rw [← hc] at h2; rw [h] at h2; cases h2
  · rw [if_neg hc]; exact h2

theorem cacheInj (st : RunState) (hwf : CacheWF st) (c c2 : Color) (v v2 : Nat)
    (h1 : lookupC st.cache c = some v) (h2 : lookupC st.cache c2 = some v2)
    (hne : c ≠ c2) : v ≠ v2 := by
  have m1 := lookupC_some_mem _ _ _ h1
  have m2 := lookupC_some_mem _ _ _ h2
  have hsym : Symmetric (fun a b : Color × Nat => a.1 ≠ b.1 ∧ a.2 ≠ b.2) := by
    intro a b hab
    exact ⟨hab.1.symm, hab.2.symm⟩
  have := List.Pairwise.forall hsym hwf.2 m1 m2 (by
    intro hcontra
    exact hne (congrArg Prod.fst hcontra))
  exact this.2

theorem incl_cons_skip (img : Image) (p : Nat × Nat) (rest : List (Nat × Nat))
    (h : skipB img p = true) : incl img (p :: rest) = incl img rest := by
  simp [incl, h]

theorem incl_cons_run (img : Image) (p : Nat × Nat) (rest : List (Nat × Nat))
    (h : skipB img p = false) : incl img (p :: rest) = p :: incl img rest := by
  simp [incl, h]

theorem count_skip (img : Image) (cache : List (Color × Nat)) (p : Nat × Nat)
    (rest : List (Nat × Nat)) (h : skipB img p = true) :
    newColorCount img cache (p :: rest) = newColorCount img cache rest := by
  simp [newColorCount, colorsOfList, incl_cons_skip img p rest h]

theorem count_hit (img : Image) (cache : List (Color × Nat)) (p : Nat × Nat)
    (rest : List (Nat × Nat)) (v : Nat) (h : skipB img p = false)
    (hlk : lookupC cache (colorAt img p.1 p.2) = some v) :
    newColorCount img cache (p :: rest) = newColorCount img cache rest := by
  simp [newColorCount, colorsOfList, incl_cons_run img p rest h, hlk]

theorem count_miss (img : Image) (cache : List (Color × Nat)) (p : Nat × Nat)
    (rest : List (Nat × Nat)) (mid : Nat) (h : skipB img p = false)
    (hlk : lookupC cache (colorAt img p.1 p.2) = none) :
    newColorCount img cache (p :: rest)
      = 1 + newColorCount img ((colorAt img p.1 p.2, mid) :: cache) rest := by
  have hP : ((lookupC cache (colorAt img p.1 p.2)).isNone : Bool) = true := by simp [hlk]
  unfold newColorCount colorsOfList
  rw [incl_cons_run img p rest h, List.map_cons]
  rw [List.filter_cons]
  simp only [hP, reduceIte]
  rw [List.toFinset_cons]
  have hset : (List.filter (fun d => (lookupC ((colorAt img p.1 p.2, mid) :: cache) d).isNone)
        ((incl img rest).map (fun q => colorAt img q.1 q.2))).toFinset
      = (List.filter (fun d => (lookupC cache d).isNone)
        ((incl img rest).map (fun q => colorAt img q.1 q.2))).toFinset.erase
          (colorAt img p.1 p.2) := by
    ext d
    simp only [List.mem_toFinset, List.mem_filter, Finset.mem_erase]
    constructor
    · rintro ⟨hdL, hd2⟩
      simp only [lookupC] at hd2
      by_cases hcd : colorAt img p.1 p.2 = d
      · rw [if_pos hcd] at hd2; simp at hd2
      · rw [if_neg hcd] at hd2
        exact ⟨fun hh => hcd hh.symm, hdL, hd2⟩
    · rintro ⟨hne, hdL, hd⟩
      refine ⟨hdL, ?_⟩
      simp only [lookupC]
      rw [if_neg (fun hh => hne hh.symm)]
      exact hd
  rw [hset]
  set S := (List.filter (fun d => (lookupC cache d).isNone)
      ((incl img rest).map (fun q => colorAt img q.1 q.2))).toFinset with hS
  by_cases hmem : colorAt img p.1 p.2 ∈ S
  · rw [Finset.insert_eq_self.mpr hmem, Finset.card_erase_of_mem hmem]
    have hpos : 0 < S.card := Finset.card_pos.mpr ⟨_, hmem⟩
    omega
  · rw [Finset.card_insert_of_not_mem hmem, Finset.erase_eq_of_not_mem hmem]
    omega

theorem step_hit (cfg : Config) (img : Image) (fn : String) (pid x y : Nat)
    (st : RunState) (c : Color) (mid : Nat)
    (hpc : pixelColor img x y = .ok c)
    (hskip : ¬(img.channels = 4 ∧ c.2.2.2 = 0))
    (hm : fmtOk (pyFormat cfg.material_name
      (pixParams fn (strcolorOf c) x y (struse_nodes cfg.use_nodes))) = true)
    (hs : fmtOk (pyFormat cfg.mesh_name
      (pixParams fn (strcolorOf c) x y (struse_nodes cfg.use_nodes))) = true)
    (hc2 : fmtOk (pyFormat cfg.cube_name
      (pixParams fn (strcolorOf c) x y (struse_nodes cfg.use_nodes))) = true)
    (hlk : lookupC st.cache c = some mid) :
    ∃ st1, processPixel cfg img fn pid x y st = .ok st1 ∧
      st1.cache = st.cache ∧
      st1.scene.materials = st.scene.materials ∧
      st1.scene.nextMatId = st.scene.nextMatId ∧
      (∃ o : SceneObj, st1.scene.objects = st.scene.objects ++ [o] ∧
        o.data.isSome = true ∧ o.parent = some pid) ∧
      (∃ m : Mesh, st1.scene.meshes = st.scene.meshes ++ [m] ∧ m.materials = [mid]) := by
  obtain ⟨mn, sn, cn, hrun⟩ := processPixel_run cfg img fn pid x y st c hpc hskip hm hs hc2
  rw [resolveMaterial_hit cfg.reuse_materials cfg.use_nodes mn c st mid hlk] at hrun
  refine ⟨_, hrun, rfl, ?_, ?_,
    ⟨⟨st.scene.nextObjId, cn, some st.scene.nextMeshId, (x, y, 0), some pid⟩, ?_, rfl, rfl⟩,
    ⟨⟨st.scene.nextMeshId, sn, cube_verts, cube_edges, cube_faces, [mid]⟩, ?_, rfl⟩⟩ <;>
    simp [newCubeObject, newCubeMesh, linkToCollection, logEv]

theorem step_miss_create (cfg : Config) (img : Image) (fn : String) (pid x y : Nat)
    (st : RunState) (c : Color)
    (hpc : pixelColor img x y = .ok c)
    (hskip : ¬(img.channels = 4 ∧ c.2.2.2 = 0))
    (hm : fmtOk (pyFormat cfg.material_name
      (pixParams fn (strcolorOf c) x y (struse_nodes cfg.use_nodes))) = true)
    (hs : fmtOk (pyFormat cfg.mesh_name
      (pixParams fn (strcolorOf c) x y (struse_nodes cfg.use_nodes))) = true)
    (hc2 : fmtOk (pyFormat cfg.cube_name
      (pixParams fn (strcolorOf c) x y (struse_nodes cfg.use_nodes))) = true)
    (hreuse : cfg.reuse_materials = false)
    (hlk : lookupC st.cache c = none) :
    ∃ st1, processPixel cfg img fn pid x y st = .ok st1 ∧
      st1.cache = (c, st.scene.nextMatId) :: st.cache ∧
      (∃ mat, st1.scene.materials = st.scene.materials ++ [mat]) ∧
      st1.scene.nextMatId = st.scene.nextMatId + 1 ∧
      (∃ o : SceneObj, st1.scene.objects = st.scene.objects ++ [o] ∧
        o.data.isSome = true ∧ o.parent = some pid) ∧
      (∃ m : Mesh, st1.scene.meshes = st.scene.meshes ++ [m] ∧
        m.materials = [st.scene.nextMatId]) := by
  obtain ⟨mn, sn, cn, hrun⟩ := processPixel_run cfg img fn pid x y st c hpc hskip hm hs hc2
  rw [hreuse] at hrun
  rw [resolveMaterial_miss_noreuse cfg.use_nodes mn c st hlk] at hrun
  refine ⟨_, hrun, rfl, ⟨mkMaterial st.scene.nextMatId mn c cfg.use_nodes, ?_⟩, ?_,
    ⟨⟨st.scene.nextObjId, cn, some st.scene.nextMeshId, (x, y, 0), some pid⟩, ?_, rfl, rfl⟩,
    ⟨⟨st.scene.nextMeshId, sn, cube_verts, cube_edges, cube_faces, [st.scene.nextMatId]⟩,
      ?_, rfl⟩⟩ <;>
    simp [newCubeObject, newCubeMesh, linkToCollection, logEv]

theorem step_miss_reuse (cfg : Config) (img : Image) (fn : String) (pid x y : Nat)
    (st : RunState) (c : Color)
    (hpc : pixelColor img x y = .ok c)
    (hskip : ¬(img.channels = 4 ∧ c.2.2.2 = 0))
    (hm : fmtOk (pyFormat cfg.material_name
      (pixParams fn (strcolorOf c) x y (struse_nodes cfg.use_nodes))) = true)
    (hs : fmtOk (pyFormat cfg.mesh_name
      (pixParams fn (strcolorOf c) x y (struse_nodes cfg.use_nodes))) = true)
    (hc2 : fmtOk (pyFormat cfg.cube_name
      (pixParams fn (strcolorOf c) x y (struse_nodes cfg.use_nodes))) = true)
    (hreuse : cfg.reuse_materials = true)
    (hlk : lookupC st.cache c = none) :
    ∃ st1 mid, processPixel cfg img fn pid x y st = .ok st1 ∧
      st1.cache = (c, mid) :: st.cache ∧
      (∃ o : SceneObj, st1.scene.objects = st.scene.objects ++ [o] ∧
        o.data.isSome = true ∧ o.parent = some pid) ∧
      (∃ m : Mesh, st1.scene.meshes = st.scene.meshes ++ [m] ∧ m.materials = [mid]) := by
  obtain ⟨mn, sn, cn, hrun⟩ := processPixel_run cfg img fn pid x y st c hpc hskip hm hs hc2
  rw [hreuse] at hrun
  cases hg : registryGet st.scene mn with
  | some m2 =>
    rw [resolveMaterial_reuse_found cfg.use_nodes mn c st m2 hlk hg] at hrun
    refine ⟨_, m2.id, hrun, rfl,
      ⟨⟨st.scene.nextObjId, cn, some st.scene.nextMeshId, (x, y, 0), some pid⟩, ?_, rfl, rfl⟩,
      ⟨⟨st.scene.nextMeshId, sn, cube_verts, cube_edges, cube_faces, [m2.id]⟩, ?_, rfl⟩⟩ <;>
      simp [newCubeObject, newCubeMesh, linkToCollection, logEv]
  | none =>
    rw [resolveMaterial_reuse_notfound cfg.use_nodes mn c st hlk hg] at hrun
    refine ⟨_, st.scene.nextMatId, hrun, rfl,
      ⟨⟨st.scene.nextObjId, cn, some st.scene.nextMeshId, (x, y, 0), some pid⟩, ?_, rfl, rfl⟩,
      ⟨⟨st.scene.nextMeshId, sn, cube_verts, cube_edges, cube_faces, [st.scene.nextMatId]⟩,
        ?_, rfl⟩⟩ <;>
      simp [newCubeObject, newCubeMesh, linkToCollection, logEv]

theorem loop_spec (cfg : Config) (img : Image) (fn : String) (pid : Nat)
    (hv : TemplatesOk cfg) (hwf : WF img)
    (hch : img.channels = 1 ∨ img.channels = 3 ∨ img.channels = 4) :
    ∀ ps : List (Nat × Nat), (∀ p ∈ ps, p.1 < img.width ∧ p.2 < img.height) →
    ∀ st : RunState, ∃ st2 : RunState,
      foldPy (fun st q => processPixel cfg img fn pid q.1 q.2 st) st ps = .ok st2 ∧
      (∀ c v, lookupC st.cache c = some v → lookupC st2.cache c = some v) ∧
      (∀ p ∈ incl img ps, ∃ mid, lookupC st2.cache (colorAt img p.1 p.2) = some mid) ∧
      (∃ os, st2.scene.objects = st.scene.objects ++ os ∧
        os.length = (incl img ps).length ∧
        ∀ o ∈ os, o.data.isSome = true ∧ o.parent = some pid) ∧
      (∃ ms, st2.scene.meshes = st.scene.meshes ++ ms ∧
        List.Forall₂ (fun p m => ∃ mid,
          lookupC st2.cache (colorAt img p.1 p.2) = some mid ∧ m.materials = [mid])
          (incl img ps) ms) ∧
      (cfg.reuse_materials = false →
        ∃ mats, st2.scene.materials = st.scene.materials ++ mats ∧
          mats.length = newColorCount img st.cache ps) ∧
      (cfg.reuse_materials = false → CacheWF st → CacheWF st2) := by
  have hfm : ∀ (c : Color) (x y : Nat), fmtOk (pyFormat cfg.material_name
      (pixParams fn (strcolorOf c) x y (struse_nodes cfg.use_nodes))) = true := by
    intro c x y
    rw [pyFormat_ok_congr cfg.material_name _ valPixParams (keysOf_pixParams _ _ _ _ _)]
    exact hv.2.1
  have hfs : ∀ (c : Color) (x y : Nat), fmtOk (pyFormat cfg.mesh_name
      (pixParams fn (strcolorOf c) x y (struse_nodes cfg.use_nodes))) = true := by
    intro c x y
    rw [pyFormat_ok_congr cfg.mesh_name _ valPixParams (keysOf_pixParams _ _ _ _ _)]
    exact hv.2.2.1
  have hfc : ∀ (c : Color) (x y : Nat), fmtOk (pyFormat cfg.cube_name
      (pixParams fn (strcolorOf c) x y (struse_nodes cfg.use_nodes))) = true := by
    intro c x y
    rw [pyFormat_ok_congr cfg.cube_name _ valPixParams (keysOf_pixParams _ _ _ _ _)]
    exact hv.2.2.2
  intro ps
  induction ps with
  | nil =>
    intro _ st
    refine ⟨st, rfl, fun c v h => h, ?_, ⟨[], by simp, by simp [incl], by simp⟩,
      ⟨[], by simp, ?_⟩,
      fun _ => ⟨[], by simp, by simp [newColorCount, colorsOfList, incl]⟩,
      fun _ h => h⟩
    · intro p hp
      simp [incl] at hp
    · simp only [incl, List.filter_nil]
      exact List.Forall₂.nil
  | cons p rest ih =>
    intro hb st
    have hbp := hb p (List.mem_cons_self p rest)
    have hbr : ∀ q ∈ rest, q.1 < img.width ∧ q.2 < img.height :=
      fun q hq => hb q (List.mem_cons_of_mem _ hq)
    have hpc := pixelColor_eq img p.1 p.2 hwf hch hbp.1 hbp.2
    by_cases hskip : img.channels = 4 ∧ (colorAt img p.1 p.2).2.2.2 = 0
    · have hsb : skipB img p = true := by
        simp only [skipB, decide_eq_true_eq]
        exact hskip
      obtain ⟨st2, hfold, hmono, hdom, hos, hms, hmats, hcwf⟩ := ih hbr st
      refine ⟨st2, ?_, hmono, ?_, ?_, ?_, ?_, hcwf⟩
      · simp only [foldPy]
        rw [processPixel_skip cfg img fn pid p.1 p.2 st _ hpc hskip.1 hskip.2]
        exact hfold
      · rw [incl_cons_skip img p rest hsb]
        exact hdom
      · rw [incl_cons_skip img p rest hsb]
        exact hos
      · rw [incl_cons_skip img p rest hsb]
        exact hms
      · intro hr
        rw [count_skip img st.cache p rest hsb]
        exact hmats hr
    · have hsb : skipB img p = false := by
        simp only [skipB, decide_eq_false_iff_not]
        exact hskip
      cases hlk : lookupC st.cache (colorAt img p.1 p.2) with
      | some mid =>
        obtain ⟨st1, hrun, hcache, hstmat, hnm, ⟨o, hoeq, hodata, hopar⟩, ⟨m, hmeq, hmmat⟩⟩ :=
          step_hit cfg img fn pid p.1 p.2 st _ mid hpc hskip
            (hfm _ _ _) (hfs _ _ _) (hfc _ _ _) hlk
        obtain ⟨st2, hfold, hmono, hdom, ⟨os, hos, holen, homem⟩, ⟨ms, hms, hfa⟩, hmats, hcwf⟩ :=
          ih hbr st1
        refine ⟨st2, ?_, ?_, ?_, ?_, ?_, ?_, ?_⟩
        · simp only [foldPy]
          rw [hrun]
          exact hfold
        · intro c v hcv
          exact hmono c v (by rw [hcache]; exact hcv)
        · intro q hq
          rw [incl_cons_run img p rest hsb] at hq
          rcases List.mem_cons.mp hq with h | h
          · subst h
            exact ⟨mid, hmono _ _ (by rw [hcache]; exact hlk)⟩
          · exact hdom q h
        · refine ⟨o :: os, ?_, ?_, ?_⟩
          · rw [hos, hoeq]
            simp
          · rw [incl_cons_run img p rest hsb]
            simp [holen]
          · intro o2 ho2
            rcases List.mem_cons.mp ho2 with h | h
            · subst h
              exact ⟨hodata, hopar⟩
            · exact homem o2 h
        · refine ⟨m :: ms, ?_, ?_⟩
          · rw [hms, hmeq]
            simp
          · rw [incl_cons_run img p rest hsb]
            exact List.Forall₂.cons
              ⟨mid, hmono _ _ (by rw [hcache]; exact hlk), hmmat⟩ hfa
        · intro hr
          obtain ⟨mats, hm2, hml⟩ := hmats hr
          refine ⟨mats, ?_, ?_⟩
          · rw [hm2, hstmat]
          · rw [count_hit img st.cache p rest mid hsb hlk]
            rw [hcache] at hml
            exact hml
        · intro hr hcw
          apply hcwf hr
          constructor
          · intro e he
            rw [hcache] at he
            rw [hnm]
            exact hcw.1 e he
          · rw [hcache]
            exact hcw.2
      | none =>
        cases hreuse : cfg.reuse_materials with
        | false =>
          obtain ⟨st1, hrun, hcache, ⟨mat, hmateq⟩, hnm,
              ⟨o, hoeq, hodata, hopar⟩, ⟨m, hmeq, hmmat⟩⟩ :=
            step_miss_create cfg img fn pid p.1 p.2 st _ hpc hskip
              (hfm _ _ _) (hfs _ _ _) (hfc _ _ _) hreuse hlk
          obtain ⟨st2, hfold, hmono, hdom, ⟨os, hos, holen, homem⟩, ⟨ms, hms, hfa⟩,
              hmats, hcwf⟩ := ih hbr st1
          refine ⟨st2, ?_, ?_, ?_, ?_, ?_, ?_, ?_⟩
          · simp only [foldPy]
            rw [hrun]
            exact hfold
          · intro c v hcv
            apply hmono
            rw [hcache]
            exact lookupC_cons_preserve st.cache _ c v st.scene.nextMatId hlk hcv
          · intro q hq
            rw [incl_cons_run img p rest hsb] at hq
            rcases List.mem_cons.mp hq with h | h
            · subst h
              refine ⟨st.scene.nextMatId, hmono _ _ ?_⟩
              rw [hcache]
              exact lookupC_cons_self _ _ _
            · exact hdom q h
          · refine ⟨o :: os, ?_, ?_, ?_⟩
            · rw [hos, hoeq]
              simp
            · rw [incl_cons_run img p rest hsb]
              simp [holen]
            · intro o2 ho2
              rcases List.mem_cons.mp ho2 with h | h
              · subst h
                exact ⟨hodata, hopar⟩
              · exact homem o2 h
          · refine ⟨m :: ms, ?_, ?_⟩
            · rw [hms, hmeq]
              simp
            · rw [incl_cons_run img p rest hsb]
              refine List.Forall₂.cons ⟨st.scene.nextMatId, hmono _ _ ?_, hmmat⟩ hfa
              rw [hcache]
              exact lookupC_cons_self _ _ _
          · intro hr
            obtain ⟨mats, hm2, hml⟩ := hmats hreuse
            refine ⟨mat :: mats, ?_, ?_⟩
            · rw [hm2, hmateq]
              simp
            · rw [count_miss img st.cache p rest st.scene.nextMatId hsb hlk]
              rw [hcache] at hml
              simp only [List.length_cons]
              omega
          · intro hr hcw
            apply hcwf hreuse
            constructor
            · intro e he
              rw [hcache] at he
              rcases List.mem_cons.mp he with h | h
              · subst h
                rw [hnm]
                omega
              · rw [hnm]
                have := hcw.1 e h
                omega
            · rw [hcache]
              refine List.Pairwise.cons ?_ hcw.2
              intro e he
              refine ⟨?_, ?_⟩
              · exact fun hh => (lookupC_none_ne st.cache _ hlk e he) hh.symm
              · have := hcw.1 e he
                simp only []
                omega
        | true =>
          obtain ⟨st1, mid, hrun, hcache, ⟨o, hoeq, hodata, hopar⟩, ⟨m, hmeq, hmmat⟩⟩ :=
            step_miss_reuse cfg img fn pid p.1 p.2 st _ hpc hskip
              (hfm _ _ _) (hfs _ _ _) (hfc _ _ _) hreuse hlk
          obtain ⟨st2, hfold, hmono, hdom, ⟨os, hos, holen, homem⟩, ⟨ms, hms, hfa⟩,
              hmats, hcwf⟩ := ih hbr st1
          refine ⟨st2, ?_, ?_, ?_, ?_, ?_, ?_, ?_⟩
          · simp only [foldPy]
            rw [hrun]
            exact hfold
          · intro c v hcv
            apply hmono
            rw [hcache]
            exact lookupC_cons_preserve st.cache _ c v mid hlk hcv
          · intro q hq
            rw [incl_cons_run img p rest hsb] at hq
            rcases List.mem_cons.mp hq with h | h
            · subst h
              refine ⟨mid, hmono _ _ ?_⟩
              rw [hcache]
              exact lookupC_cons_self _ _ _
            · exact hdom q h
          · refine ⟨o :: os, ?_, ?_, ?_⟩
            · rw [hos, hoeq]
              simp
            · rw [incl_cons_run img p rest hsb]
              simp [holen]
            · intro o2 ho2
              rcases List.mem_cons.mp ho2 with h | h
              · subst h
                exact ⟨hodata, hopar⟩
              · exact homem o2 h
          · refine ⟨m :: ms, ?_, ?_⟩
            · rw [hms, hmeq]
              simp
            · rw [incl_cons_run img p rest hsb]
              refine List.Forall₂.cons ⟨mid, hmono _ _ ?_, hmmat⟩ hfa
              rw [hcache]
              exact lookupC_cons_self _ _ _
          · intro hr
            exact absurd hr (by decide)
          · intro hr
            exact absurd hr (by decide)

theorem processRows_eq (cfg : Config) (img : Image) (fn : String) (pid : Nat) (st : RunState) :
    processRows cfg img fn pid st
      = foldPy (fun st q => processPixel cfg img fn pid q.1 q.2 st) st (gridList img) := by
  exact foldPy_nested (fun st x y => processPixel cfg img fn pid x y st)
    (List.range img.height) (List.range img.width) st

theorem gridList_bounds (img : Image) :
    ∀ p ∈ gridList img, p.1 < img.width ∧ p.2 < img.height := by
  intro p hp
  simp only [gridList, List.mem_flatMap, List.mem_map, List.mem_range] at hp
  obtain ⟨y, hy, x, hx, hxy⟩ := hp
  rw [← hxy]
  exact ⟨hx, hy⟩

theorem gridList_length (img : Image) :
    (gridList img).length = img.height * img.width := by
  unfold gridList
  rw [List.length_flatMap]
  induction img.height with
  | zero => simp
  | succ n ih =>
    rw [List.range_succ]
    simp [ih]
    ring

theorem incl_eq_self (img : Image) (ps : List (Nat × Nat))
    (hop : ∀ p ∈ ps, skipB img p = false) : incl img ps = ps := by
  unfold incl
  apply List.filter_eq_self.mpr
  intro p hp
  simp [hop p hp]

theorem run_spec (cfg : Config) (img : Image) (fp : String) (s0 : Scene)
    (hv : TemplatesOk cfg) (hwf : WF img)
    (hch : img.channels = 1 ∨ img.channels = 3 ∨ img.channels = 4) :
    ∃ sF pObj os ms cacheF,
      read_pixel_art cfg img fp s0 = .ok sF ∧
      pObj.data = none ∧ pObj.id = s0.nextObjId ∧
      sF.objects = s0.objects ++ pObj :: os ∧
      os.length = (incl img (gridList img)).length ∧
      (∀ o ∈ os, o.data.isSome = true ∧ o.parent = some pObj.id) ∧
      sF.meshes = s0.meshes ++ ms ∧
      List.Forall₂ (fun p m => ∃ mid,
        lookupC cacheF (colorAt img p.1 p.2) = some mid ∧ m.materials = [mid])
        (incl img (gridList img)) ms ∧
      (∀ p ∈ incl img (gridList img), ∃ mid,
        lookupC cacheF (colorAt img p.1 p.2) = some mid) ∧
      (cfg.reuse_materials = false →
        (∃ mats, sF.materials = s0.materials ++ mats ∧
          mats.length = newColorCount img [] (gridList img)) ∧
        (∀ c c2 v v2, lookupC cacheF c = some v → lookupC cacheF c2 = some v2 →
          c ≠ c2 → v ≠ v2)) := by
  have h1 : fmtOk (pyFormat cfg.parent_name
      (parentParams (basename fp) (struse_nodes cfg.use_nodes))) = true := by
    rw [pyFormat_ok_congr cfg.parent_name _ valParentParams (keysOf_parentParams _ _)]
    exact hv.1
  obtain ⟨pname, hpn⟩ := fmtOk_exists h1
  obtain ⟨st2, hfold, hmono, hdom, ⟨os, hos, holen, homem⟩, ⟨ms, hms, hfa⟩, hmats, hcwf⟩ :=
    loop_spec cfg img (basename fp) (newEmptyObject (logEv s0 .imageLoad) pname).2 hv hwf hch
      (gridList img) (gridList_bounds img)
      ⟨linkToCollection (newEmptyObject (logEv s0 .imageLoad) pname).1
        (newEmptyObject (logEv s0 .imageLoad) pname).2, []⟩
  have hread : read_pixel_art cfg img fp s0 = .ok (releaseImage st2.scene) := by
    simp only [read_pixel_art, runBody, if_pos hch, hpn]
    rw [processRows_eq]
    rw [hfold]
  have hpid : (newEmptyObject (logEv s0 .imageLoad) pname).2 = s0.nextObjId := by
    simp [newEmptyObject, logEv]
  refine ⟨releaseImage st2.scene,
    ⟨s0.nextObjId, pname, none, (0, 0, 0), none⟩, os, ms, st2.cache,
    hread, rfl, rfl, ?_, holen, ?_, ?_, hfa, hdom, ?_⟩
  · rw [releaseImage]
    simp only [logEv]
    rw [hos]
    simp [linkToCollection, newEmptyObject, logEv]
  · intro o ho
    obtain ⟨hd, hp⟩ := homem o ho
    rw [hpid] at hp
    exact ⟨hd, hp⟩
  · rw [releaseImage]
    simp only [logEv]
    rw [hms]
    simp [linkToCollection, newEmptyObject, logEv]
  · intro hr
    refine ⟨?_, ?_⟩
    · obtain ⟨mats, hmeq, hml⟩ := hmats hr
      refine ⟨mats, ?_, hml⟩
      rw [releaseImage]
      simp only [logEv]
      rw [hmeq]
      simp [linkToCollection, newEmptyObject, logEv]
    · intro c c2 v v2 hc1 hc2 hne
      have hwf2 : CacheWF st2 := hcwf hr (by constructor <;> simp)
      exact cacheInj st2 hwf2 c c2 v v2 hc1 hc2 hne

theorem foldPy_evExt (cfg : Config) (img : Image) (fn : String) (pid : Nat) :
    ∀ (l : List (Nat × Nat)) (st : RunState),
      EvExt st.scene ((foldPy (fun st q => processPixel cfg img fn pid q.1 q.2 st)
        st l).stateOf).scene := by
  intro l
  induction l with
  | nil => intro st; exact evExt_refl _
  | cons a rest ih =>
    intro st
    have h1 := processPixel_evExt cfg img fn pid a.1 a.2 st
    simp only [foldPy]
    cases hfa : processPixel cfg img fn pid a.1 a.2 st with
    | ok s1 =>
      rw [hfa] at h1
      exact evExt_trans h1 (ih s1)
    | err e s1 =>
      rw [hfa] at h1
      exact h1

theorem runBody_evExt (cfg : Config) (img : Image) (fn : String) (s : Scene) :
    EvExt s (runBody cfg img fn s).stateOf := by
  unfold runBody
  split
  · split
    · exact evExt_refl s
    · rename_i pname heq
      have e1 : EvExt s (linkToCollection (newEmptyObject s pname).1
          (newEmptyObject s pname).2) := by
        refine evExt_fields [.objCreate s.nextObjId pname, .collectionLink s.nextObjId] ?_ ?_
        · simp [newEmptyObject, linkToCollection]
        · intro e he
          rcases List.mem_cons.mp he with h | h
          · simp [h, EvOK]
          · simp at h; simp [h, EvOK]
      have e2 := foldPy_evExt cfg img fn (newEmptyObject s pname).2 (gridList img)
        ⟨linkToCollection (newEmptyObject s pname).1 (newEmptyObject s pname).2, []⟩
      rw [← processRows_eq] at e2
      split
      · rename_i st2 hrows
        rw [hrows] at e2
        exact evExt_trans e1 e2
      · rename_i e3 st2 hrows
        rw [hrows] at e2
        exact evExt_trans e1 e2
  · exact evExt_refl s

theorem runBody_err (cfg : Config) (img : Image) (fn : String) (s s2 : Scene) (e : PyErr)
    (hv : TemplatesOk cfg) (h : runBody cfg img fn s = .err e s2) : e.isFmt = false := by
  have hfm : ∀ (c : Color) (x y : Nat), fmtOk (pyFormat cfg.material_name
      (pixParams fn (strcolorOf c) x y (struse_nodes cfg.use_nodes))) = true := by
    intro c x y
    rw [pyFormat_ok_congr cfg.material_name _ valPixParams (keysOf_pixParams _ _ _ _ _)]
    exact hv.2.1
  have hfs : ∀ (c : Color) (x y : Nat), fmtOk (pyFormat cfg.mesh_name
      (pixParams fn (strcolorOf c) x y (struse_nodes cfg.use_nodes))) = true := by
    intro c x y
    rw [pyFormat_ok_congr cfg.mesh_name _ valPixParams (keysOf_pixParams _ _ _ _ _)]
    exact hv.2.2.1
  have hfc : ∀ (c : Color) (x y : Nat), fmtOk (pyFormat cfg.cube_name
      (pixParams fn (strcolorOf c) x y (struse_nodes cfg.use_nodes))) = true := by
    intro c x y
    rw [pyFormat_ok_congr cfg.cube_name _ valPixParams (keysOf_pixParams _ _ _ _ _)]
    exact hv.2.2.2
  unfold runBody at h
  by_cases hch : img.channels = 1 ∨ img.channels = 3 ∨ img.channels = 4
  · rw [if_pos hch] at h
    cases hpn : pyFormat cfg.parent_name (parentParams fn (struse_nodes cfg.use_nodes)) with
    | error e2 =>
      have : fmtOk (pyFormat cfg.parent_name
          (parentParams fn (struse_nodes cfg.use_nodes))) = true := by
        rw [pyFormat_ok_congr cfg.parent_name _ valParentParams (keysOf_parentParams _ _)]
        exact hv.1
      rw [hpn] at this
      simp [fmtOk] at this
    | ok pname =>
      rw [hpn] at h
      have h2 : (match processRows cfg img fn (newEmptyObject s pname).2
          ⟨linkToCollection (newEmptyObject s pname).1 (newEmptyObject s pname).2, []⟩ with
        | PyResult.ok st => PyResult.ok st.scene
        | PyResult.err e st => PyResult.err e st.scene) = PyResult.err e s2 := h
      rw [processRows_eq] at h2
      cases hrows : foldPy
          (fun st q => processPixel cfg img fn (newEmptyObject s pname).2 q.1 q.2 st)
          ⟨linkToCollection (newEmptyObject s pname).1 (newEmptyObject s pname).2, []⟩
          (gridList img) with
      | ok st2 =>
        rw [hrows] at h2
        cases h2
      | err e3 st2 =>
        rw [hrows] at h2
        injection h2 with he hs
        subst he
        obtain ⟨st0, q, st1, hq, hstep⟩ := foldPy_err _ _ _ _ _ hrows
        cases hpcq : pixelColor img q.1 q.2 with
        | error e4 =>
          have he : e3 = .indexError := by
            apply processPixel_err cfg img fn (newEmptyObject s pname).2 q.1 q.2 st0 st1
              (0, 0, 0, 0) e3 (hfm _ _ _) (hfs _ _ _) (hfc _ _ _)
              (fun e5 h5 => pixelColor_err img q.1 q.2 e5 h5)
              (fun c2 h2 => by rw [hpcq] at h2; cases h2)
              hstep
          rw [he]
          rfl
        | ok c0 =>
          have he : e3 = .indexError := by
            apply processPixel_err cfg img fn (newEmptyObject s pname).2 q.1 q.2 st0 st1
              c0 e3 (hfm _ _ _) (hfs _ _ _) (hfc _ _ _)
              (fun e5 h5 => pixelColor_err img q.1 q.2 e5 h5)
              (fun c2 h2 => by rw [hpcq] at h2; cases h2; rfl)
              hstep
          rw [he]
          rfl
  · rw [if_neg hch] at h
    cases h
    rfl

theorem validateList_none_iff (cfg : Config) :
    validateList (validationItems cfg) = none ↔ TemplatesOk cfg := by
  unfold validationItems TemplatesOk
  cases h1 : pyFormat cfg.parent_name valParentParams with
  | error e =>
    cases e <;> simp [validateList, fmtOk, h1]
  | ok v1 =>
    cases h2 : pyFormat cfg.material_name valPixParams with
    | error e =>
      cases e <;> simp [validateList, fmtOk, h1, h2]
    | ok v2 =>
      cases h3 : pyFormat cfg.mesh_name valPixParams with
      | error e =>
        cases e <;> simp [validateList, fmtOk, h1, h2, h3]
      | ok v3 =>
        cases h4 : pyFormat cfg.cube_name valPixParams with
        | error e =>
          cases e <;> simp [validateList, fmtOk, h1, h2, h3, h4]
        | ok v4 =>
          simp [validateList, fmtOk, h1, h2, h3, h4]

theorem read_stateOf (cfg : Config) (img : Image) (fp : String) (s0 : Scene) :
    (read_pixel_art cfg img fp s0).stateOf
      = releaseImage (runBody cfg img (basename fp) (logEv s0 .imageLoad)).stateOf := by
  unfold read_pixel_art
  cases runBody cfg img (basename fp) (logEv s0 .imageLoad) <;> rfl

theorem releaseImage_events (s : Scene) :
    (releaseImage s).events = s.events ++ [Ev.imageUserClear] ++ [Ev.imageRemove] := rfl

/-- Claim C2: in every run over a successfully decoded image, the decoded
image resource is released exactly once on every exit path: the trace of
the run is the load event, then intermediate events none of which is an
image lifecycle event, then exactly one user_clear followed by exactly one
remove, whether the run completed normally or raised anywhere in the
channel check or the pixel loop. -/
theorem claim_c2 (cfg : Config) (img : Image) (fp : String) (s0 : Scene) :
    ∃ mid, (read_pixel_art cfg img fp s0).stateOf.events
        = s0.events ++ [Ev.imageLoad] ++ mid ++ [Ev.imageUserClear, Ev.imageRemove] ∧
      ∀ e ∈ mid, e ≠ Ev.imageLoad ∧ e ≠ Ev.imageUserClear ∧ e ≠ Ev.imageRemove := by
  obtain ⟨mid, hmid, hok⟩ := runBody_evExt cfg img (basename fp) (logEv s0 .imageLoad)
  refine ⟨mid, ?_, hok⟩
  rw [read_stateOf, releaseImage_events, hmid]
  simp [logEv]

/-- Claim C5: for every image whose channel count is not 1, 3 or 4 the run
fails with the unsupported-channel-count IOError, creates no objects,
materials or meshes (not even the group node), and the image is still
released. -/
theorem claim_c5 (cfg : Config) (img : Image) (fp : String) (s0 : Scene)
    (h1 : img.channels ≠ 1) (h3 : img.channels ≠ 3) (h4 : img.channels ≠ 4) :
    ∃ sF, read_pixel_art cfg img fp s0
        = .err (.ioError ("Cannot handle image with " ++ toString img.channels
            ++ " channels!")) sF ∧
      sF.objects = s0.objects ∧ sF.materials = s0.materials ∧ sF.meshes = s0.meshes ∧
      sF.events = s0.events ++ [Ev.imageLoad, Ev.imageUserClear, Ev.imageRemove] := by
  have hch : ¬(img.channels = 1 ∨ img.channels = 3 ∨ img.channels = 4) := by
    intro h
    rcases h with h | h | h
    · exact h1 h
    · exact h3 h
    · exact h4 h
  refine ⟨{ s0 with
      events := s0.events ++ [Ev.imageLoad, Ev.imageUserClear, Ev.imageRemove] },
    ?_, rfl, rfl, rfl, rfl⟩
  simp [read_pixel_art, runBody, if_neg hch, releaseImage, logEv]

/-- Witness for claim C5: a 2-channel image. -/
theorem claim_c5_witness :
    ∃ sF, read_pixel_art {} ⟨2, 1, 1, [0, 0]⟩ "img.png" emptyScene
        = .err (.ioError ("Cannot handle image with "
            ++ toString (Image.channels ⟨2, 1, 1, [0, 0]⟩) ++ " channels!")) sF ∧
      sF.objects = emptyScene.objects ∧ sF.materials = emptyScene.materials ∧
      sF.meshes = emptyScene.meshes ∧
      sF.events = emptyScene.events ++ [Ev.imageLoad, Ev.imageUserClear, Ev.imageRemove] :=
  claim_c5 {} ⟨2, 1, 1, [0, 0]⟩ "img.png" emptyScene (by decide) (by decide) (by decide)

/-- Claim C6: whenever any of the four name templates fails validation
(unknown field or malformed syntax), execute reports an error and cancels
before the image is loaded and before any scene mutation: its result state
differs from the initial scene only by the report event, so zero objects
and zero materials are created. -/
theorem claim_c6 (cfg : Config) (fp : String) (img : Image) (s0 : Scene)
    (hbad : ¬ TemplatesOk cfg) :
    ∃ msg, execute cfg fp img s0
        = .done { s0 with events := s0.events ++ [Ev.report msg] } OpResult.CANCELLED := by
  cases hvl : validateList (validationItems cfg) with
  | none => exact absurd ((validateList_none_iff cfg).mp hvl) hbad
  | some msg =>
    refine ⟨msg, ?_⟩
    simp [execute, hvl, logEv]

/-- Witness for claim C6: an operator configuration whose group-node
template references the undefined field bogus. -/
theorem claim_c6_witness :
    ∃ msg, execute { parent_name := "\x7bbogus\x7d" } "img.png" ⟨3, 1, 1, [0, 0, 0]⟩
        emptyScene
        = .done { emptyScene with events := emptyScene.events ++ [Ev.report msg] }
          OpResult.CANCELLED :=
  claim_c6 { parent_name := "\x7bbogus\x7d" } "img.png" ⟨3, 1, 1, [0, 0, 0]⟩ emptyScene
    (fun h => absurd h.1 (by decide))

/-- Claim C10: the keyword sets used to validate the templates in execute
equal the keyword sets supplied when the same templates are formatted
during conversion (filename and use_nodes for the group-node template;
filename, color, x, y and use_nodes for the pixel templates), and
consequently a run whose templates passed validation never raises a
formatting error (missing key or malformed template). -/
theorem claim_c10 (f strcolor : String) (x y : Nat) (u : String) (cfg : Config)
    (img : Image) (fp : String) (s0 : Scene) :
    keysOf (pixParams f strcolor x y u) = keysOf valPixParams ∧
    keysOf (parentParams f u) = keysOf valParentParams ∧
    (TemplatesOk cfg → ∀ e sF, read_pixel_art cfg img fp s0 = .err e sF →
      e.isFmt = false) := by
  refine ⟨rfl, rfl, ?_⟩
  intro hv e sF h
  unfold read_pixel_art at h
  cases hr : runBody cfg img (basename fp) (logEv s0 .imageLoad) with
  | ok s =>
    rw [hr] at h
    cases h
  | err e2 s =>
    rw [hr] at h
    injection h with he hs
    subst he
    exact runBody_err cfg img (basename fp) (logEv s0 .imageLoad) s e2 hv hr

/-- Claim C4: in a 4-channel image, a pixel whose alpha sample is exactly
0 is skipped entirely: the loop body returns the state unchanged, so no
cube object, no mesh, no material cache lookup and no material creation
happen for that pixel (a material for the same color may still arise from
another pixel with positive alpha, which only ever touches the state of
that other pixel). -/
theorem claim_c4 (cfg : Config) (img : Image) (fn : String) (pid x y : Nat) (st : RunState)
    (hwf : WF img) (h4 : img.channels = 4) (hx : x < img.width) (hy : y < img.height)
    (ha : (colorAt img x y).2.2.2 = 0) :
    processPixel cfg img fn pid x y st = .ok st := by
  have hpc := pixelColor_eq img x y hwf (Or.inr (Or.inr h4)) hx hy
  exact processPixel_skip cfg img fn pid x y st _ hpc h4 ha

/-- Witness for claim C4 at a concrete 1 by 1 RGBA image whose single
pixel has alpha 0. -/
theorem claim_c4_witness :
    processPixel {} ⟨4, 1, 1, [1, 1, 1, 0]⟩ "img.png" 0 0 0 ⟨emptyScene, []⟩
      = .ok ⟨emptyScene, []⟩ :=
  claim_c4 {} ⟨4, 1, 1, [1, 1, 1, 0]⟩ "img.png" 0 0 0 ⟨emptyScene, []⟩
    rfl rfl (by decide) (by decide) (by decide)

/-- Claim C9: with material reuse enabled, when a color is first
encountered (not in the run-local cache) and a material with the computed
name already exists in the global registry, the existing material is
reused: the material registry is left untouched (so no new material is
created and no property of the found material is modified), the found
material id is returned, and the cache binds the color to it. -/
theorem claim_c9 (cfg : Config) (name : String) (c : Color) (st : RunState) (m : Material)
    (hreuse : cfg.reuse_materials = true)
    (hmiss : lookupC st.cache c = none)
    (hfound : registryGet st.scene name = some m) :
    ∃ st1, resolveMaterial cfg.reuse_materials cfg.use_nodes name c st = (st1, m.id) ∧
      st1.scene.materials = st.scene.materials ∧
      st1.scene.objects = st.scene.objects ∧
      st1.scene.meshes = st.scene.meshes ∧
      st1.cache = (c, m.id) :: st.cache := by
  rw [hreuse]
  rw [resolveMaterial_reuse_found cfg.use_nodes name c st m hmiss hfound]
  exact ⟨_, rfl, rfl, rfl, rfl, rfl⟩

/-- Witness for claim C9: a registry holding one material with the
computed name, an empty cache, and reuse enabled. -/
theorem claim_c9_witness :
    ∃ st1, resolveMaterial (Config.reuse_materials { reuse_materials := true })
        (Config.use_nodes { reuse_materials := true }) "pixel_art_FF0000FF" (1, 0, 0, 1)
        ⟨{ emptyScene with materials := [mkMaterial 7 "pixel_art_FF0000FF" (1, 0, 0, 1) true] },
          []⟩
        = (st1, (mkMaterial 7 "pixel_art_FF0000FF" (1, 0, 0, 1) true).id) ∧
      st1.scene.materials
        = [mkMaterial 7 "pixel_art_FF0000FF" (1, 0, 0, 1) true] ∧
      st1.scene.objects = [] ∧
      st1.scene.meshes = [] ∧
      st1.cache = [((1, 0, 0, 1), (mkMaterial 7 "pixel_art_FF0000FF" (1, 0, 0, 1) true).id)] :=
  claim_c9 { reuse_materials := true } "pixel_art_FF0000FF" (1, 0, 0, 1)
    ⟨{ emptyScene with materials := [mkMaterial 7 "pixel_art_FF0000FF" (1, 0, 0, 1) true] }, []⟩
    (mkMaterial 7 "pixel_art_FF0000FF" (1, 0, 0, 1) true) rfl rfl (by decide)

/-- Claim C7: a material freshly created with the shader graph enabled has
its base color set to the pixel color; its node tree starts with a diffuse
node whose input 0 is the pixel color and an output node; when alpha is
below 1 a mix node with factor alpha and a transparent node with the same
input color are added, with the diffuse output linked into mix input 1,
the transparent output into mix input 2 and the mix output into the
material output; when alpha equals 1 the diffuse output feeds the material
output directly. -/
theorem claim_c7 (id : Nat) (name : String) (c : Color) (ha : c.2.2.2 ≤ 1) :
    (mkMaterial id name c true).diffuse_color = c ∧
    (mkMaterial id name c true).use_nodes = true ∧
    (mkMaterial id name c true).nodes[0]? = some ⟨.diffuse, .color c⟩ ∧
    (mkMaterial id name c true).nodes[1]? = some ⟨.output, .unset⟩ ∧
    (c.2.2.2 < 1 →
      (mkMaterial id name c true).nodes
        = [⟨.diffuse, .color c⟩, ⟨.output, .unset⟩, ⟨.mix, .scalar c.2.2.2⟩,
           ⟨.transparent, .color c⟩] ∧
      (mkMaterial id name c true).links = [⟨0, 0, 2, 1⟩, ⟨3, 0, 2, 2⟩, ⟨2, 0, 1, 0⟩]) ∧
    (c.2.2.2 = 1 →
      (mkMaterial id name c true).nodes = [⟨.diffuse, .color c⟩, ⟨.output, .unset⟩] ∧
      (mkMaterial id name c true).links = [⟨0, 0, 1, 0⟩]) := by
  unfold mkMaterial buildNodeTree
  by_cases h : c.2.2.2 < 1
  · refine ⟨?_, ?_, ?_, ?_, fun _ => ?_,
      fun h1 => absurd h (by rw [h1]; exact lt_irrefl 1)⟩ <;> simp [if_pos h]
  · refine ⟨?_, ?_, ?_, ?_, fun h1 => absurd h1 h, fun _ => ?_⟩ <;> simp [if_neg h]

theorem pyInt255_eq_floor (q : ℚ) (h : 0 ≤ q) : pyInt255 q = ⌊q * 255⌋ := by
  unfold pyInt255
  rw [Int.tdiv_eq_ediv (mul_nonneg (Rat.num_nonneg.mpr h) (by norm_num))
    (by exact_mod_cast Nat.zero_le q.den)]
  rw [← Rat.floor_intCast_div_natCast (q.num * 255) q.den]
  congr 1
  push_cast
  conv_rhs => rw [← Rat.num_div_den q]
  ring

theorem floor_byte_bounds (q : ℚ) (h0 : 0 ≤ q) (h1 : q ≤ 1) :
    0 ≤ ⌊q * 255⌋ ∧ ⌊q * 255⌋ ≤ 255 := by
  constructor
  · rw [Int.le_floor]
    push_cast
    nlinarith
  · have h2 : q * 255 ≤ ((255 : ℤ) : ℚ) := by push_cast; nlinarith
    calc ⌊q * 255⌋ ≤ ⌊((255 : ℤ) : ℚ)⌋ := Int.floor_le_floor h2
      _ = 255 := Int.floor_intCast 255

set_option maxRecDepth 4000 in
theorem pyPct02X_byte : ∀ n : Nat, n < 256 → pyPct02X (n : ℤ) = hex2 n := by decide

theorem hex2_len (n : Nat) : (hex2 n).length = 2 := rfl

theorem hexChar_hex : ∀ m : Nat, m < 16 → isHexUpper (hexChar m) := by decide

theorem hex2_chars (n : Nat) (h : n < 256) : ∀ ch ∈ (hex2 n).data, isHexUpper ch := by
  intro ch hch
  have hd : (hex2 n).data = [hexChar (n / 16), hexChar (n % 16)] := rfl
  rw [hd] at hch
  rcases List.mem_cons.mp hch with h1 | h1
  · rw [h1]
    exact hexChar_hex (n / 16) (by omega)
  · simp only [List.mem_singleton] at h1
    rw [h1]
    exact hexChar_hex (n % 16) (by omega)

/-- Claim C8: for channel values in the unit interval, the {color} field
renders as the four channels in the order r, g, b, a, each as the exactly
two uppercase hexadecimal digits of floor of the channel value times 255,
giving exactly 8 uppercase hexadecimal digits in total. -/
theorem claim_c8 (r g b a : ℚ)
    (hr0 : 0 ≤ r) (hr1 : r ≤ 1) (hg0 : 0 ≤ g) (hg1 : g ≤ 1)
    (hb0 : 0 ≤ b) (hb1 : b ≤ 1) (ha0 : 0 ≤ a) (ha1 : a ≤ 1) :
    strcolorOf (r, g, b, a)
      = hex2 (⌊r * 255⌋).toNat ++ hex2 (⌊g * 255⌋).toNat ++ hex2 (⌊b * 255⌋).toNat
        ++ hex2 (⌊a * 255⌋).toNat ∧
    (strcolorOf (r, g, b, a)).length = 8 ∧
    ∀ ch ∈ (strcolorOf (r, g, b, a)).data, isHexUpper ch := by
  have key : ∀ q : ℚ, 0 ≤ q → q ≤ 1 →
      pyPct02X (pyInt255 q) = hex2 (⌊q * 255⌋).toNat ∧ (⌊q * 255⌋).toNat < 256 := by
    intro q h0 h1
    obtain ⟨hf0, hf255⟩ := floor_byte_bounds q h0 h1
    have hlt : (⌊q * 255⌋).toNat < 256 := by omega
    refine ⟨?_, hlt⟩
    rw [pyInt255_eq_floor q h0]
    rw [show ⌊q * 255⌋ = ((⌊q * 255⌋).toNat : ℤ) by omega]
    exact pyPct02X_byte _ hlt
  have e1 := key r hr0 hr1
  have e2 := key g hg0 hg1
  have e3 := key b hb0 hb1
  have e4 := key a ha0 ha1
  have hmain : strcolorOf (r, g, b, a)
      = hex2 (⌊r * 255⌋).toNat ++ hex2 (⌊g * 255⌋).toNat ++ hex2 (⌊b * 255⌋).toNat
        ++ hex2 (⌊a * 255⌋).toNat := by
    unfold strcolorOf
    dsimp only
    rw [e1.1, e2.1, e3.1, e4.1]
  refine ⟨hmain, ?_, ?_⟩
  · rw [hmain]
    simp [String.length_append, hex2_len]
  · rw [hmain]
    intro ch hch
    simp only [String.data_append] at hch
    rcases List.mem_append.mp hch with h | h
    · rcases List.mem_append.mp h with h | h
      · rcases List.mem_append.mp h with h | h
        · exact hex2_chars _ e1.2 ch h
        · exact hex2_chars _ e2.2 ch h
      · exact hex2_chars _ e3.2 ch h
    · exact hex2_chars _ e4.2 ch h

/-- Witness for claim C8 at the color with all channels one half. -/
theorem claim_c8_witness :
    strcolorOf (⟨1, 2, by decide, Nat.coprime_one_left 2⟩, ⟨1, 2, by decide,
        Nat.coprime_one_left 2⟩, ⟨1, 2, by decide, Nat.coprime_one_left 2⟩,
        ⟨1, 2, by decide, Nat.coprime_one_left 2⟩)
      = hex2 (⌊(⟨1, 2, by decide, Nat.coprime_one_left 2⟩ : ℚ) * 255⌋).toNat
        ++ hex2 (⌊(⟨1, 2, by decide, Nat.coprime_one_left 2⟩ : ℚ) * 255⌋).toNat
        ++ hex2 (⌊(⟨1, 2, by decide, Nat.coprime_one_left 2⟩ : ℚ) * 255⌋).toNat
        ++ hex2 (⌊(⟨1, 2, by decide, Nat.coprime_one_left 2⟩ : ℚ) * 255⌋).toNat ∧
    (strcolorOf (⟨1, 2, by decide, Nat.coprime_one_left 2⟩, ⟨1, 2, by decide,
        Nat.coprime_one_left 2⟩, ⟨1, 2, by decide, Nat.coprime_one_left 2⟩,
        ⟨1, 2, by decide, Nat.coprime_one_left 2⟩)).length = 8 ∧
    ∀ ch ∈ (strcolorOf (⟨1, 2, by decide, Nat.coprime_one_left 2⟩, ⟨1, 2, by decide,
        Nat.coprime_one_left 2⟩, ⟨1, 2, by decide, Nat.coprime_one_left 2⟩,
        ⟨1, 2, by decide, Nat.coprime_one_left 2⟩)).data, isHexUpper ch :=
  claim_c8 _ _ _ _ (by decide) (by decide) (by decide) (by decide)
    (by decide) (by decide) (by decide) (by decide)

/-- Witness for claim C7 at two concrete colors, one translucent and one
opaque. -/
theorem claim_c7_witness :
    ((mkMaterial 0 "m" (0, 0, 0, ⟨1, 2, by decide, Nat.coprime_one_left 2⟩) true).nodes
        = [⟨.diffuse, .color (0, 0, 0, ⟨1, 2, by decide, Nat.coprime_one_left 2⟩)⟩,
           ⟨.output, .unset⟩,
           ⟨.mix, .scalar ⟨1, 2, by decide, Nat.coprime_one_left 2⟩⟩,
           ⟨.transparent, .color (0, 0, 0, ⟨1, 2, by decide, Nat.coprime_one_left 2⟩)⟩] ∧
      (mkMaterial 0 "m" (0, 0, 0, ⟨1, 2, by decide, Nat.coprime_one_left 2⟩) true).links
        = [⟨0, 0, 2, 1⟩, ⟨3, 0, 2, 2⟩, ⟨2, 0, 1, 0⟩]) ∧
    ((mkMaterial 0 "m" (0, 0, 0, 1) true).nodes
        = [⟨.diffuse, .color (0, 0, 0, 1)⟩, ⟨.output, .unset⟩] ∧
      (mkMaterial 0 "m" (0, 0, 0, 1) true).links = [⟨0, 0, 1, 0⟩]) :=
  ⟨(claim_c7 0 "m" (0, 0, 0, ⟨1, 2, by decide, Nat.coprime_one_left 2⟩)
      (by decide)).2.2.2.2.1 (by decide),
   (claim_c7 0 "m" (0, 0, 0, 1) (by decide)).2.2.2.2.2 rfl⟩

/-- Claim C1: running the converter on a well-formed fully opaque image
with valid templates and material reuse disabled (the default) creates the
single group node first, then exactly width times height cube objects, all
parented to the group node, and appends exactly as many materials to the
registry as the image has distinct exact color tuples. -/
theorem claim_c1 (cfg : Config) (img : Image) (fp : String) (s0 : Scene)
    (hv : TemplatesOk cfg) (hwf : WF img)
    (hch : img.channels = 1 ∨ img.channels = 3 ∨ img.channels = 4)
    (hreuse : cfg.reuse_materials = false)
    (hop : img.channels = 4 → ∀ p ∈ gridList img, (colorAt img p.1 p.2).2.2.2 = 1) :
    ∃ sF pObj cubes mats,
      read_pixel_art cfg img fp s0 = .ok sF ∧
      sF.objects = s0.objects ++ pObj :: cubes ∧
      pObj.data = none ∧
      cubes.length = img.width * img.height ∧
      (∀ o ∈ cubes, o.data.isSome = true ∧ o.parent = some pObj.id) ∧
      sF.materials = s0.materials ++ mats ∧
      mats.length = distinctColorCount img := by
  obtain ⟨sF, pObj, os, ms, cacheF, hread, hpdata, hpid, hobj, hoslen, homem, hms, hfa,
    hdom, hlast⟩ := run_spec cfg img fp s0 hv hwf hch
  have hnoskip : ∀ p ∈ gridList img, skipB img p = false := by
    intro p hp
    simp only [skipB, decide_eq_false_iff_not]
    rintro ⟨h4, ha⟩
    have := hop h4 p hp
    rw [this] at ha
    norm_num at ha
  have hincl : incl img (gridList img) = gridList img := incl_eq_self img _ hnoskip
  obtain ⟨mats, hmeq, hmlen⟩ := (hlast hreuse).1
  have hcount : newColorCount img [] (gridList img) = distinctColorCount img := by
    unfold newColorCount distinctColorCount allColors colorsOfList
    rw [hincl]
    have hfilter : ((gridList img).map (fun p => colorAt img p.1 p.2)).filter
        (fun c => (lookupC [] c).isNone)
        = (gridList img).map (fun p => colorAt img p.1 p.2) := by
      apply List.filter_eq_self.mpr
      intro a _
      simp [lookupC]
    rw [hfilter]
  refine ⟨sF, pObj, os, mats, hread, hobj, hpdata, ?_, homem, hmeq, ?_⟩
  · rw [hoslen, hincl, gridList_length]
    exact Nat.mul_comm _ _
  · rw [hmlen, hcount]

/-- Witness for claim C1: a 1 by 1 RGB image with one black pixel, default
configuration, fresh scene. -/
theorem claim_c1_witness :
    ∃ sF pObj cubes mats,
      read_pixel_art {} ⟨3, 1, 1, [0, 0, 0]⟩ "img.png" emptyScene = .ok sF ∧
      sF.objects = emptyScene.objects ++ pObj :: cubes ∧
      pObj.data = none ∧
      cubes.length = Image.width ⟨3, 1, 1, [0, 0, 0]⟩ * Image.height ⟨3, 1, 1, [0, 0, 0]⟩ ∧
      (∀ o ∈ cubes, o.data.isSome = true ∧ o.parent = some pObj.id) ∧
      sF.materials = emptyScene.materials ++ mats ∧
      mats.length = distinctColorCount ⟨3, 1, 1, [0, 0, 0]⟩ :=
  claim_c1 {} ⟨3, 1, 1, [0, 0, 0]⟩ "img.png" emptyScene ⟨rfl, rfl, rfl, rfl⟩ rfl
    (Or.inr (Or.inl rfl)) rfl (fun h => absurd h (by decide))

/-- Claim C3 as stated is false on the code: with reuse_materials enabled,
two pixels whose exact color tuples differ in the red channel (0 versus
1/512) but whose hex renderings agree receive the same material, because
the second pixel finds the material created for the first by its computed
name in the global registry. The run below creates two cubes whose meshes
both reference material 0, and only one material in total. -/
theorem claim_c3_counterexample :
    colorAt ⟨4, 2, 1, [0, 0, 0, 1, q512, 0, 0, 1]⟩ 0 0
        ≠ colorAt ⟨4, 2, 1, [0, 0, 0, 1, q512, 0, 0, 1]⟩ 1 0 ∧
    ∃ sF, read_pixel_art { reuse_materials := true }
        ⟨4, 2, 1, [0, 0, 0, 1, q512, 0, 0, 1]⟩ "img.png" emptyScene = .ok sF ∧
      sF.meshes.map (fun m => m.materials) = [[0], [0]] ∧
      sF.materials.length = 1 :=
  ⟨by decide, _, rfl, rfl, rfl⟩

/-- Claim C3 amended: in every run with valid templates over a well-formed
image, the material assigned to a cube is a function of its pixel's exact
color tuple alone, so two pixels with bit-identical (r, g, b, a) tuples
always share one material in both reuse modes; and when
reuse_existing_materials is disabled, two pixels whose tuples differ in
any channel always receive distinct materials. (As stated the claim also
asserted distinctness under reuse; the counterexample shows that two
distinct tuples rendering to the same 8-digit hex name can then share a
material.) -/
theorem claim_c3_amended (cfg : Config) (img : Image) (fp : String) (s0 : Scene)
    (hv : TemplatesOk cfg) (hwf : WF img)
    (hch : img.channels = 1 ∨ img.channels = 3 ∨ img.channels = 4) :
    ∃ (sF : Scene) (ms : List Mesh) (matOf : Color → Nat),
      read_pixel_art cfg img fp s0 = .ok sF ∧
      sF.meshes = s0.meshes ++ ms ∧
      List.Forall₂ (fun p m => m.materials = [matOf (colorAt img p.1 p.2)])
        (incl img (gridList img)) ms ∧
      (cfg.reuse_materials = false →
        ∀ p q, p ∈ incl img (gridList img) → q ∈ incl img (gridList img) →
          colorAt img p.1 p.2 ≠ colorAt img q.1 q.2 →
          matOf (colorAt img p.1 p.2) ≠ matOf (colorAt img q.1 q.2)) := by
  obtain ⟨sF, pObj, os, ms, cacheF, hread, hpdata, hpid, hobj, hoslen, homem, hms, hfa,
    hdom, hlast⟩ := run_spec cfg img fp s0 hv hwf hch
  refine ⟨sF, ms, fun col => (lookupC cacheF col).getD 0, hread, hms, ?_, ?_⟩
  · refine List.Forall₂.imp ?_ hfa
    intro p m hm
    obtain ⟨mid, hmid, hmm⟩ := hm
    rw [hmm]
    dsimp only
    rw [hmid]
    rfl
  · intro hr p q hp hq hne
    obtain ⟨mp, hmp⟩ := hdom p hp
    obtain ⟨mq, hmq⟩ := hdom q hq
    dsimp only
    rw [hmp, hmq]
    simp only [Option.getD_some]
    exact (hlast hr).2 _ _ mp mq hmp hmq hne

/-- Witness for the amended claim C3: the 1 by 1 RGB image with one black
pixel, default configuration, fresh scene. -/
theorem claim_c3_amended_witness :
    ∃ (sF : Scene) (ms : List Mesh) (matOf : Color → Nat),
      read_pixel_art {} ⟨3, 1, 1, [0, 0, 0]⟩ "img.png" emptyScene = .ok sF ∧
      sF.meshes = emptyScene.meshes ++ ms ∧
      List.Forall₂ (fun (p : Nat × Nat) (m : Mesh) =>
          m.materials = [matOf (colorAt ⟨3, 1, 1, [0, 0, 0]⟩ p.1 p.2)])
        (incl ⟨3, 1, 1, [0, 0, 0]⟩ (gridList ⟨3, 1, 1, [0, 0, 0]⟩)) ms ∧
      (Config.reuse_materials {} = false →
        ∀ p q, p ∈ incl ⟨3, 1, 1, [0, 0, 0]⟩ (gridList ⟨3, 1, 1, [0, 0, 0]⟩) →
          q ∈ incl ⟨3, 1, 1, [0, 0, 0]⟩ (gridList ⟨3, 1, 1, [0, 0, 0]⟩) →
          colorAt ⟨3, 1, 1, [0, 0, 0]⟩ p.1 p.2 ≠ colorAt ⟨3, 1, 1, [0, 0, 0]⟩ q.1 q.2 →
          matOf (colorAt ⟨3, 1, 1, [0, 0, 0]⟩ p.1 p.2)
            ≠ matOf (colorAt ⟨3, 1, 1, [0, 0, 0]⟩ q.1 q.2)) :=
  claim_c3_amended {} ⟨3, 1, 1, [0, 0, 0]⟩ "img.png" emptyScene ⟨rfl, rfl, rfl, rfl⟩ rfl
    (Or.inr (Or.inl rfl))

end PixelArt
